import Mathlib

/-!
Verification development for the Brazilian-statute parser repository
(parser.py, crossref.py, validator.py, pipeline.py).

The Python source works by a cascade of `re` operations over plain text.
We shallowly embed the source into Lean:

* text is `List Char` (Unicode code points, as in Python `str`);
* every regular expression of the source is translated into a small
  executable pattern AST `RE` together with a backtracking matcher `M`
  that reproduces Python `re` semantics for the constructs actually used
  by the source (leftmost match, greedy quantifiers, left-preferring
  alternation, capture groups, lookahead); all quantifiers in the source
  apply to single-character classes or to small bounded groups, so the
  matcher is structurally recursive;
* `re.sub` / `re.split` / `re.finditer` / `re.match` / `re.search` are
  implemented on top of the matcher with Python's non-overlapping
  leftmost scan;
* each Python function of the source is translated one-to-one, keeping
  its name (leading underscores of private Python helpers are dropped);
* Python floats in the source only ever hold small decimal constants and
  results of `round(_, 2)` on sums of such constants, which are exact in
  two decimal digits, so they are modelled as `ℚ`.
-/

namespace Leis

/-- Text is a list of Unicode characters, as in Python `str`. -/
abbrev Str := List Char

/-- Capture groups of a regex match: association list from group index to
the text captured by that group.  A group that did not participate in the
match is absent (Python `None`). -/
abbrev Groups := List (Nat × Str)

/-- Pattern AST covering the regex constructs used by the source.
Quantified subpatterns in the source are always single-character classes
(`\s*`, `[^\n]*`, `[\w-]*`, `[^\n)]{1,40}`, ...), represented by
`starTok` / `repTok`; the only quantified group, `(?:\w+\s+){0,3}`, is
expanded to a bounded nest of `opt`/`seq` (see `repRE`). -/
inductive RE : Type where
  /-- empty pattern -/
  | eps : RE
  /-- a single character matching the class predicate -/
  | tok : (Char → Bool) → RE
  /-- concatenation -/
  | seq : RE → RE → RE
  /-- alternation, left branch preferred (Python semantics) -/
  | alt : RE → RE → RE
  /-- greedy Kleene star of a character class -/
  | starTok : (Char → Bool) → RE
  /-- greedy bounded repetition `p{lo,hi}` of a character class -/
  | repTok : (Char → Bool) → Nat → Nat → RE
  /-- greedy option `(...)?` -/
  | opt : RE → RE
  /-- capture group with the given index -/
  | group : Nat → RE → RE
  /-- zero-width lookahead `(?=...)` -/
  | look : RE → RE
  /-- zero-width end of input -/
  | atEnd : RE

/-- Residues of `l` after consuming a greedy run of class characters:
all suffixes obtained by consuming `k` leading characters of the class,
for `k` from the full run length down to `0` (greedy preference order). -/
def dropsDesc (p : Char → Bool) : Str → List Str
  | [] => [[]]
  | c :: r => if p c then dropsDesc p r ++ [c :: r] else [c :: r]

/-- Length of the leading run of class characters. -/
def runLen (p : Char → Bool) : Str → Nat
  | [] => 0
  | c :: r => if p c then runLen p r + 1 else 0

/-- Residues for bounded greedy repetition `p{lo,hi}`: consume `k`
characters for `k` from `min hi run` down to `lo` (greedy order);
no residue when fewer than `lo` class characters are available. -/
def repResidues (p : Char → Bool) (lo hi : Nat) (l : Str) : List Str :=
  let m := min (runLen p l) hi
  (List.range (m + 1 - lo)).map (fun i => l.drop (m - i))

/-- The matcher.  `M r l` returns, in Python backtracking preference
order, every pair of (remaining suffix, captured groups) such that `r`
matches the corresponding prefix of `l`.  The head of the list is the
match Python's `re` engine picks. -/
def M : RE → Str → List (Str × Groups)
  | .eps, l => [(l, [])]
  | .tok p, l =>
    match l with
    | [] => []
    | c :: r => if p c then [(r, [])] else []
  | .seq a b, l =>
    (M a l).flatMap (fun x => (M b x.1).map (fun y => (y.1, x.2 ++ y.2)))
  | .alt a b, l => M a l ++ M b l
  | .starTok p, l => (dropsDesc p l).map (fun r => (r, []))
  | .repTok p lo hi, l => (repResidues p lo hi l).map (fun r => (r, []))
  | .opt a, l => M a l ++ [(l, [])]
  | .group n a, l =>
    (M a l).map (fun x => (x.1, x.2 ++ [(n, l.take (l.length - x.1.length))]))
  | .look a, l =>
    match M a l with
    | [] => []
    | _ :: _ => [(l, [])]
  | .atEnd, l =>
    match l with
    | [] => [([], [])]
    | _ :: _ => []

/-- Exact literal pattern. -/
def lit : Str → RE
  | [] => .eps
  | c :: r => .seq (.tok (fun x => x = c)) (lit r)

/-- Lower-casing covering ASCII plus the accented letters appearing in
the source's case-insensitive patterns (Python `re.IGNORECASE` over
`str`). -/
def lowerPT (c : Char) : Char :=
  if c = 'Á' then 'á' else if c = 'À' then 'à' else if c = 'Â' then 'â'
  else if c = 'Ã' then 'ã' else if c = 'É' then 'é' else if c = 'Ê' then 'ê'
  else if c = 'Í' then 'í' else if c = 'Ó' then 'ó' else if c = 'Ô' then 'ô'
  else if c = 'Õ' then 'õ' else if c = 'Ú' then 'ú' else if c = 'Ü' then 'ü'
  else if c = 'Ç' then 'ç' else c.toLower

/-- Case-insensitive single character. -/
def tokCI (c : Char) : RE := .tok (fun x => lowerPT x = lowerPT c)

/-- Case-insensitive literal pattern. -/
def litCI : Str → RE
  | [] => .eps
  | c :: r => .seq (tokCI c) (litCI r)

/-- Source `p+` for a character class. -/
def plusTok (p : Char → Bool) : RE := .seq (.tok p) (.starTok p)

/-- Alternation of a list of patterns, first preferred. -/
def reOr : List RE → RE
  | [] => .tok (fun _ => false)
  | [r] => r
  | r :: rs => .alt r (reOr rs)

/-- Concatenation of a list of patterns. -/
def reCat : List RE → RE
  | [] => .eps
  | [r] => r
  | r :: rs => .seq r (reCat rs)

/-- Greedy bounded repetition `r{0,hi}` of an arbitrary pattern,
expanded to nested greedy options (preference: more iterations first,
matching Python's greedy `{lo,hi}`). -/
def repRE (r : RE) : Nat → RE
  | 0 => .eps
  | n + 1 => .opt (.seq r (repRE r n))

/-- A regex match: start offset (in characters), matched text, groups. -/
structure MatchRes where
  start : Nat
  matched : Str
  groups : Groups
deriving Repr, DecidableEq

/-- Python `m.group(i)` (None when the group did not participate). -/
def MatchRes.grp (m : MatchRes) (i : Nat) : Option Str :=
  m.groups.lookup i

/-- Python `re.match`: match anchored at the start of `l`;
returns matched text and groups of the preferred match. -/
def reMatch (pat : RE) (l : Str) : Option (Str × Groups) :=
  match (M pat l).head? with
  | some (rest, g) => some (l.take (l.length - rest.length), g)
  | none => none

/-- The preferred match of `pat` at the very start of `l`, as a
`MatchRes` with offset 0. -/
def hitAt (pat : RE) (l : Str) : Option MatchRes :=
  match (M pat l).head? with
  | some (rest, g) => some ⟨0, l.take (l.length - rest.length), g⟩
  | none => none

/-- Leftmost match in `l`, with its local start offset. -/
def searchLocal (pat : RE) : Str → Option MatchRes
  | [] => hitAt pat []
  | c :: r =>
    match hitAt pat (c :: r) with
    | some m => some m
    | none =>
      (searchLocal pat r).map (fun m => ⟨m.start + 1, m.matched, m.groups⟩)

/-- Python `re.search`. -/
def reSearch (pat : RE) (l : Str) : Option MatchRes := searchLocal pat l

/-- One step of Python's non-overlapping scan: past a match of length
`len` at local position `j`, scanning resumes at `j + max len 1`
(an empty match still advances one character). -/
def scanAdvance (j len : Nat) : Nat := j + max len 1

/-- Python `re.finditer`: all non-overlapping matches, leftmost first.
`fuel` bounds the recursion (the scan advances at least one character
per match, so `l.length + 1` suffices). -/
def finditerAux (pat : RE) : Nat → Str → Nat → List MatchRes
  | 0, _, _ => []
  | fuel + 1, l, off =>
    match searchLocal pat l with
    | none => []
    | some m =>
      let adv := scanAdvance m.start m.matched.length
      ⟨off + m.start, m.matched, m.groups⟩ ::
        finditerAux pat fuel (l.drop adv) (off + adv)

/-- Python `re.finditer`. -/
def reFinditer (pat : RE) (l : Str) : List MatchRes :=
  finditerAux pat (l.length + 1) l 0

/-- Python `re.sub` with a replacement function from the match.
Scans non-overlapping matches left to right; on an empty match the
character at the match position is kept and scanning advances past it. -/
def reSubAux (pat : RE) (repl : MatchRes → Str) : Nat → Str → Str
  | 0, l => l
  | fuel + 1, l =>
    match searchLocal pat l with
    | none => l
    | some m =>
      let len := m.matched.length
      if len = 0 then
        l.take (m.start + 1) ++ repl m ++
          reSubAux pat repl fuel (l.drop (m.start + 1))
      else
        l.take m.start ++ repl m ++
          reSubAux pat repl fuel (l.drop (m.start + len))

/-- Python `re.sub`. -/
def reSub (pat : RE) (repl : MatchRes → Str) (l : Str) : Str :=
  reSubAux pat repl (l.length + 1) l

/-- Python `re.split` for a pattern with exactly one capture group:
returns the alternating list
`[text before, group 1, text between, group 1, ..., text after]`,
exactly as indexed by the source (`partes[0]`, `partes[i]`,
`partes[i+1]`). -/
def reSplitG1Aux (pat : RE) : Nat → Str → List Str
  | 0, l => [l]
  | fuel + 1, l =>
    match searchLocal pat l with
    | none => [l]
    | some m =>
      let len := max m.matched.length 1
      l.take m.start :: (m.grp 1).getD [] ::
        reSplitG1Aux pat fuel (l.drop (m.start + len))

/-- Python `re.split`, one capture group. -/
def reSplitG1 (pat : RE) (l : Str) : List Str :=
  reSplitG1Aux pat (l.length + 1) l

/-- Python `re.split` for a pattern without capture groups (the source
only uses this with lookahead patterns consuming a single `\n`):
returns the list of segments between matches. -/
def reSplitSegsAux (pat : RE) : Nat → Str → List Str
  | 0, l => [l]
  | fuel + 1, l =>
    match searchLocal pat l with
    | none => [l]
    | some m =>
      let len := max m.matched.length 1
      l.take m.start :: reSplitSegsAux pat fuel (l.drop (m.start + len))

/-- Python `re.split`, no capture groups. -/
def reSplitSegs (pat : RE) (l : Str) : List Str :=
  reSplitSegsAux pat (l.length + 1) l

/-- Python `re.sub` with a pattern anchored at `^` (no MULTILINE): such a
pattern can only match at offset 0, so at most the leading match is
replaced. -/
def subStart (pat : RE) (repl : MatchRes → Str) (l : Str) : Str :=
  match hitAt pat l with
  | some m => repl m ++ l.drop m.matched.length
  | none => l

/-! ### Python `str` helpers -/

/-- Shorthand turning a string literal into the character-list text. -/
def S (s : String) : Str := s.toList

/-- Python whitespace (`str.isspace`, also the `\s` class over `str`),
restricted to the characters that can occur in the texts handled here. -/
def isSpaceB (c : Char) : Bool :=
  c = ' ' || c = '\t' || c = '\n' || c = '\r' || c = '\x0b' || c = '\x0c' ||
  c = '\x1c' || c = '\x1d' || c = '\x1e' || c = '\x1f' || c = '\x85' ||
  c = '\xa0' || c = ' ' || c = ' '

/-- Python `\d` (decimal digits; ASCII in the texts handled here). -/
def isDigitB (c : Char) : Bool := c.isDigit

/-- ASCII `[A-Za-z]`. -/
def isAsciiAlpha (c : Char) : Bool := c.isAlpha

/-- Python `\w` (word character): alphanumeric or underscore; besides
ASCII this covers the accented letters and the ordinal indicators that
occur in the statutes' text. -/
def isWordB (c : Char) : Bool :=
  c.isAlphanum || c = '_' || c = 'º' || c = 'ª' ||
  (S "áàâãéêíóôõúüçÁÀÂÃÉÊÍÓÔÕÚÜÇ").contains c

/-- Uppercase roman-numeral letters `[IVXLCDM]`. -/
def isRomanB (c : Char) : Bool :=
  c = 'I' || c = 'V' || c = 'X' || c = 'L' || c = 'C' || c = 'D' || c = 'M'

/-- Pattern `[IVXLCDM]` under `re.IGNORECASE`. -/
def isRomanCI (c : Char) : Bool := isRomanB c || isRomanB c.toUpper

/-- The ordinal-glyph class `[°oº]` of the source. -/
def isOrd (c : Char) : Bool := c = '°' || c = 'o' || c = 'º'

/-- Python line-break characters recognised by `str.splitlines`
(after the source has removed `\r`, only `\n` actually occurs). -/
def isLineBreak (c : Char) : Bool :=
  c = '\n' || c = '\r' || c = '\x0b' || c = '\x0c' || c = '\x1c' ||
  c = '\x1d' || c = '\x1e' || c = '\x85' || c = ' ' || c = ' '

/-- Worker for `splitlines`; `acc` holds the current line reversed. -/
def splitlinesGo : Str → Str → List Str
  | acc, [] => [acc.reverse]
  | acc, '\r' :: '\n' :: r2 => acc.reverse :: splitlinesGo [] r2
  | acc, '\r' :: r => acc.reverse :: splitlinesGo [] r
  | acc, c :: r =>
    if isLineBreak c then acc.reverse :: splitlinesGo [] r
    else splitlinesGo (c :: acc) r

/-- Python `str.splitlines()` (empty string gives no lines; a trailing
line break does not produce a final empty line). -/
def splitlines (l : Str) : List Str :=
  match l with
  | [] => []
  | _ =>
    if (l.getLast?.map isLineBreak).getD false then (splitlinesGo [] l).dropLast
    else splitlinesGo [] l

/-- Python `"\n".join(lines)`. -/
def joinNL (ls : List Str) : Str := (ls.intersperse (S "\n")).flatten

/-- Python `str.strip()`. -/
def pyStrip (l : Str) : Str :=
  ((l.dropWhile isSpaceB).reverse.dropWhile isSpaceB).reverse

/-- Python `a in b` for strings (substring containment). -/
def containsStr (needle hay : Str) : Bool :=
  (List.range (hay.length + 1)).any (fun i => needle.isPrefixOf (hay.drop i))

/-- Python `str.replace(old, new)` for single characters. -/
def replChar (old new : Char) (l : Str) : Str :=
  l.map (fun c => if c = old then new else c)

/-! ### Regex patterns of `parser.py`, translated one by one -/

/-- Class `[^\n)]`. -/
def noNlParen (c : Char) : Bool := !(c = '\n' || c = ')')

/-- Class `[^\n]`. -/
def noNl (c : Char) : Bool := !(c = '\n')

/-- Class `[IÍ]` under IGNORECASE. -/
def clsII (c : Char) : Bool := lowerPT c = 'i' || lowerPT c = 'í'

/-- Class `[ÇC]` under IGNORECASE. -/
def clsCC (c : Char) : Bool := lowerPT c = 'ç' || lowerPT c = 'c'

/-- Class `[ÃA]` under IGNORECASE. -/
def clsAA (c : Char) : Bool := lowerPT c = 'ã' || lowerPT c = 'a'

/-- Class `[-–]`. -/
def clsDash (c : Char) : Bool := c = '-' || c = '–'

/-- Class `[-–.]`. -/
def clsDashDot (c : Char) : Bool := c = '-' || c = '–' || c = '.'

/-- Class `[-\x96–—]` (hyphen, cp1252 en dash, en dash, em dash). -/
def clsDash4 (c : Char) : Bool :=
  c = '-' || c = '\x96' || c = '–' || c = '—'

/-- Class `[ \t]`. -/
def spaceTab (c : Char) : Bool := c = ' ' || c = '\t'

/-- Pattern `$` under `re.MULTILINE`: end of input or just before a `\n`. -/
def eolM : RE := .alt .atEnd (.look (.tok (· = '\n')))

/-- Pattern `$` without MULTILINE: end of input or just before a final `\n`. -/
def eolNoM : RE := .alt .atEnd (.look (.seq (.tok (· = '\n')) .atEnd))

/-- Pattern `(?:\n|$)` as used in the hierarchy-marker patterns. -/
def nlOrEnd : RE := .alt (.tok (· = '\n')) eolNoM

/-- Python `re.sub(r"  +", " ", l)` pattern: two or more spaces. -/
def patEspacos : RE := .seq (.tok (· = ' ')) (plusTok (· = ' '))

/-- Pattern `\(([^\n)]{1,40})\n([^\n)]{1,80}\))` — amendment parenthesis broken
across two lines. -/
def patMetaQuebrado : RE :=
  reCat [.tok (· = '('),
    .group 1 (.repTok noNlParen 1 40),
    .tok (· = '\n'),
    .group 2 (.seq (.repTok noNlParen 1 80) (.tok (· = ')')))]

/-- Pattern `\nParágrafo\n\s*(único)` (IGNORECASE). -/
def patParagrafoUnicoQuebrado : RE :=
  reCat [.tok (· = '\n'), litCI (S "Parágrafo"), .tok (· = '\n'),
    .starTok isSpaceB, .group 1 (litCI (S "único"))]

/-- Pattern `\n§\n(\d+)\n(o|º|°)\n` — paragraph sign broken across three lines. -/
def patPar3 : RE :=
  reCat [lit (S "\n§\n"), .group 1 (plusTok isDigitB), .tok (· = '\n'),
    .group 2 (reOr [.tok (· = 'o'), .tok (· = 'º'), .tok (· = '°')]),
    .tok (· = '\n')]

/-- Pattern `\n§\n(\d+[°oº])`. -/
def patPar3b : RE :=
  reCat [lit (S "\n§\n"), .group 1 (.seq (plusTok isDigitB) (.tok isOrd))]

/-- Pattern `\n§\n(\d+[°oº](?:-[A-Za-z])?\s)` — paragraph sign broken across two
lines. -/
def patPar2 : RE :=
  reCat [lit (S "\n§\n"),
    .group 1 (reCat [plusTok isDigitB, .tok isOrd,
      .opt (.seq (.tok (· = '-')) (.tok isAsciiAlpha)), .tok isSpaceB])]

/-- Pattern `(\d)\n(o)\n`. -/
def patOrd1 : RE :=
  reCat [.group 1 (.tok isDigitB), .tok (· = '\n'),
    .group 2 (.tok (· = 'o')), .tok (· = '\n')]

/-- Pattern `(\d)\n([°º])\n`. -/
def patOrd2 : RE :=
  reCat [.group 1 (.tok isDigitB), .tok (· = '\n'),
    .group 2 (.tok (fun c => c = '°' || c = 'º')), .tok (· = '\n')]

/-- Pattern `(\d)\n(o)$` (MULTILINE). -/
def patOrd3 : RE :=
  reCat [.group 1 (.tok isDigitB), .tok (· = '\n'),
    .group 2 (.tok (· = 'o')), eolM]

/-- Pattern `(\d)\n([°º])$` (MULTILINE). -/
def patOrd4 : RE :=
  reCat [.group 1 (.tok isDigitB), .tok (· = '\n'),
    .group 2 (.tok (fun c => c = '°' || c = 'º')), eolM]

/-- Pattern `(Art\.\s*\d+)\n([°oº])\n`. -/
def patArtOrd : RE :=
  reCat [.group 1 (reCat [lit (S "Art."), .starTok isSpaceB,
      plusTok isDigitB]),
    .tok (· = '\n'), .group 2 (.tok isOrd), .tok (· = '\n')]

/-- Pattern `^(Art\.?\s*\d+[°oº]?(?:-[A-Za-z])?)\s*$` — a line that is exactly a
bare article marker (`_fix_art_partido`). -/
def patArtLinha : RE :=
  reCat [.group 1 (reCat [lit (S "Art"), .opt (.tok (· = '.')),
      .starTok isSpaceB, plusTok isDigitB, .opt (.tok isOrd),
      .opt (.seq (.tok (· = '-')) (.tok isAsciiAlpha))]),
    .starTok isSpaceB, eolNoM]

/-- Keyword `T[IÍ]TULO` under IGNORECASE. -/
def kwTitulo : RE := reCat [tokCI 'T', .tok clsII, litCI (S "TULO")]

/-- Keyword `CAP[IÍ]TULO` under IGNORECASE. -/
def kwCapitulo : RE := reCat [litCI (S "CAP"), .tok clsII, litCI (S "TULO")]

/-- Keyword `SE[ÇC][ÃA]O` under IGNORECASE. -/
def kwSecao : RE := reCat [litCI (S "SE"), .tok clsCC, .tok clsAA, tokCI 'O']

/-- Keyword `SUBSE[ÇC][ÃA]O` under IGNORECASE. -/
def kwSubsecao : RE :=
  reCat [litCI (S "SUBSE"), .tok clsCC, .tok clsAA, tokCI 'O']

/-- Keyword `LIVRO` under IGNORECASE. -/
def kwLivro : RE := litCI (S "LIVRO")

/-- Keyword `PARTE` under IGNORECASE. -/
def kwParte : RE := litCI (S "PARTE")

/-- Pattern `(T[IÍ]TULO|CAP[IÍ]TULO|SE[ÇC][ÃA]O|SUBSE[ÇC][ÃA]O|LIVRO|PARTE)\s*\n\s*([IVXLCDM][\w-]*)`
(IGNORECASE) — hierarchy marker split from its numeral. -/
def patMarcadorQuebrado : RE :=
  reCat [.group 1 (reOr [kwTitulo, kwCapitulo, kwSecao, kwSubsecao,
      kwLivro, kwParte]),
    .starTok isSpaceB, .tok (· = '\n'), .starTok isSpaceB,
    .group 2 (.seq (.tok isRomanCI)
      (.starTok (fun c => isWordB c || c = '-')))]

/-- Pattern `\n([Ll]ivro|[Tt]ítulo|[Cc]apítulo)\s+[IVXLCDM]+[^\n]*\n\.\n` —
cross-reference citation artifact removed by the BUG3 fix. -/
def patRefLivro : RE :=
  reCat [.tok (· = '\n'),
    .group 1 (reOr [
      .seq (.tok (fun c => c = 'L' || c = 'l')) (lit (S "ivro")),
      .seq (.tok (fun c => c = 'T' || c = 't')) (lit (S "ítulo")),
      .seq (.tok (fun c => c = 'C' || c = 'c')) (lit (S "apítulo"))]),
    plusTok isSpaceB, plusTok isRomanB, .starTok noNl,
    .tok (· = '\n'), .tok (· = '.'), .tok (· = '\n')]

/-- Pattern `\n{3,}`. -/
def patBlank3 : RE :=
  reCat [.tok (· = '\n'), .tok (· = '\n'), .tok (· = '\n'),
    .starTok (· = '\n')]

/-- Pattern `" {2,}"` of `limpar_texto_final`. -/
def patEspacos2 : RE := .seq (.tok (· = ' ')) (plusTok (· = ' '))

/-- Pattern `^[°oº]\s*[-–]\s+`. -/
def patOrdDashIni : RE :=
  reCat [.tok isOrd, .starTok isSpaceB, .tok clsDash, plusTok isSpaceB]

/-- Pattern `^[°oº]\s+`. -/
def patOrdIni : RE := .seq (.tok isOrd) (plusTok isSpaceB)

/-- Pattern `^\s*[-–]\s+`. -/
def patDashIni : RE :=
  reCat [.starTok isSpaceB, .tok clsDash, plusTok isSpaceB]

/-- Pattern `^\.\s+`. -/
def patPontoIni : RE := .seq (.tok (· = '.')) (plusTok isSpaceB)

/-- Pattern `\s+([.,;])\s*$`. -/
def patPontuacaoFinal : RE :=
  reCat [plusTok isSpaceB,
    .group 1 (.tok (fun c => c = '.' || c = ',' || c = ';')),
    .starTok isSpaceB, eolNoM]

/-- Pattern `\s+` of `limpar_norma`. -/
def patWs : RE := plusTok isSpaceB

/-- Pattern `([0-9])[°oº]$` of `_id_num`. -/
def patIdNum : RE :=
  reCat [.group 1 (.tok (fun c => '0' ≤ c && c ≤ '9')), .tok isOrd, eolNoM]

/-- Pattern `\s+(?:Art\.?\s*\d|§\s*\d)` — embedded article/paragraph marker
(`_RE_ARTIGO_OU_PARA_EMBUTIDO`; no IGNORECASE per the BUG1 note). -/
def patArtigoOuParaEmbutido : RE :=
  reCat [plusTok isSpaceB,
    reOr [reCat [lit (S "Art"), .opt (.tok (· = '.')), .starTok isSpaceB,
        .tok isDigitB],
      reCat [.tok (· = '§'), .starTok isSpaceB, .tok isDigitB]]]

/-- Source `_PAT_META` (IGNORECASE): a parenthesized amendment annotation led
by one of the closed vocabulary words. -/
def patMeta : RE :=
  reCat [.tok (· = '('),
    .group 1 (reOr [litCI (S "Redação dada"), litCI (S "Incluído"),
      litCI (S "Incluída"), litCI (S "Incluídos"), litCI (S "Incluídas"),
      litCI (S "Revogado"), litCI (S "Revogada"), litCI (S "Revogados"),
      litCI (S "Revogadas"), litCI (S "Vide"), litCI (S "Renumerado"),
      litCI (S "Vigência"), litCI (S "Acrescido"), litCI (S "Acrescida"),
      litCI (S "Suprimido"), litCI (S "Suprimida"), litCI (S "Alterado"),
      litCI (S "Alterada"), litCI (S "VETADO")]),
    .starTok (fun c => !(c = ')')), .tok (· = ')')]

/-- Source `_PAT_NORMA` (IGNORECASE): a legal-instrument name followed by its
designation characters `[\s\w./º\-nº]*`. -/
def patNorma : RE :=
  reCat [.group 1 (reOr [
      .seq (litCI (S "Lei"))
        (.opt (.seq (plusTok isSpaceB) (litCI (S "Complementar")))),
      .seq (litCI (S "Decreto")) (.opt (litCI (S "-Lei"))),
      reCat [litCI (S "Emenda"), plusTok isSpaceB,
        litCI (S "Constitucional")],
      reCat [litCI (S "Medida"), plusTok isSpaceB, litCI (S "Provisória")],
      litCI (S "Resolução"), litCI (S "Portaria"),
      reCat [litCI (S "Instrução"), plusTok isSpaceB,
        litCI (S "Normativa")],
      reCat [litCI (S "Ato"), plusTok isSpaceB,
        reOr [litCI (S "Institucional"), litCI (S "Normativo")]],
      litCI (S "Convênio"), litCI (S "Adin"), litCI (S "ADPF")]),
    .starTok (fun c => isSpaceB c || isWordB c || c = '.' || c = '/' ||
      c = 'º' || c = '-' || c = 'n')]

/-- Source `_PAT_ANO`: `de\s+(\d{4})|de\s+\d+[º°]?\.\d+\.(\d{4})`. -/
def patAno : RE :=
  .alt
    (reCat [lit (S "de"), plusTok isSpaceB, .group 1 (.repTok isDigitB 4 4)])
    (reCat [lit (S "de"), plusTok isSpaceB, plusTok isDigitB,
      .opt (.tok (fun c => c = 'º' || c = '°')), .tok (· = '.'),
      plusTok isDigitB, .tok (· = '.'), .group 2 (.repTok isDigitB 4 4)])

/-- Source `_SPLIT_ALINEA`: `\n[ \t]*([a-z])\)[ \t]+`. -/
def patSplitAlinea : RE :=
  reCat [.tok (· = '\n'), .starTok spaceTab,
    .group 1 (.tok (fun c => 'a' ≤ c && c ≤ 'z')),
    .tok (· = ')'), plusTok spaceTab]

/-- Source `_SPLIT_INCISO`:
`\n[ \t]*([IVXLCDM]{1,7}(?:-[A-Z])?)[ \t]*\n?[ \t]*[-\x96–—][ \t]*`. -/
def patSplitInciso : RE :=
  reCat [.tok (· = '\n'), .starTok spaceTab,
    .group 1 (.seq (.repTok isRomanB 1 7)
      (.opt (.seq (.tok (· = '-')) (.tok (fun c => 'A' ≤ c && c ≤ 'Z'))))),
    .starTok spaceTab, .opt (.tok (· = '\n')), .starTok spaceTab,
    .tok clsDash4, .starTok spaceTab]

/-- Source `_SPLIT_PARAGRAFO` (IGNORECASE):
`\n(§\s*\d+[°oº]?(?:-[A-Za-z])?(?:\s*[-–.]\s*)?|Parágrafo\s+único\s*(?:[-–.]\s*)?)`. -/
def patSplitParagrafo : RE :=
  .seq (.tok (· = '\n'))
    (.group 1 (.alt
      (reCat [.tok (· = '§'), .starTok isSpaceB, plusTok isDigitB,
        .opt (.tok isOrd),
        .opt (.seq (.tok (· = '-')) (.tok isAsciiAlpha)),
        .opt (reCat [.starTok isSpaceB, .tok clsDashDot,
          .starTok isSpaceB])])
      (reCat [litCI (S "Parágrafo"), plusTok isSpaceB, litCI (S "único"),
        .starTok isSpaceB,
        .opt (.seq (.tok clsDashDot) (.starTok isSpaceB))])))

/-- Source `_RE_STRIP_ART`:
`^Art\.?\s*\d+[°oº]?(?:-[A-Za-z])?(?:\s*[-–.]\s*|\s+)`. -/
def patStripArt : RE :=
  reCat [lit (S "Art"), .opt (.tok (· = '.')), .starTok isSpaceB,
    plusTok isDigitB, .opt (.tok isOrd),
    .opt (.seq (.tok (· = '-')) (.tok isAsciiAlpha)),
    .alt (reCat [.starTok isSpaceB, .tok clsDashDot, .starTok isSpaceB])
      (plusTok isSpaceB)]

/-- Source `_SPLIT_ARTIGO`: `\n(?=Art\.?\s*\d)` (deliberately case-sensitive,
BUG1 fix). -/
def patSplitArtigo : RE :=
  .seq (.tok (· = '\n'))
    (.look (reCat [lit (S "Art"), .opt (.tok (· = '.')),
      .starTok isSpaceB, .tok isDigitB]))

/-- Source `_RE_ART_NUM`: `Art\.?\s*(\d+[°oº]?(?:-[A-Za-z])?)`. -/
def patArtNum : RE :=
  reCat [lit (S "Art"), .opt (.tok (· = '.')), .starTok isSpaceB,
    .group 1 (reCat [plusTok isDigitB, .opt (.tok isOrd),
      .opt (.seq (.tok (· = '-')) (.tok isAsciiAlpha))])]

/-- Pattern `(\d+[°oº║]?(?:-[A-Za-z])?)` — paragraph number inside its marker. -/
def patParaNum : RE :=
  .group 1 (reCat [plusTok isDigitB,
    .opt (.tok (fun c => isOrd c || c = '║')),
    .opt (.seq (.tok (· = '-')) (.tok isAsciiAlpha))])

/-- Pattern `[°oº║]` — glyphs stripped from a stored paragraph number. -/
def patOrdGlifo : RE := .tok (fun c => isOrd c || c = '║')

/-- Roman numeral (optionally suffixed) as used by the hierarchy-marker
patterns: `[IVXLCDM]+(?:-[A-Za-z])?` under IGNORECASE. -/
def romanSuf : RE :=
  .seq (plusTok isRomanCI)
    (.opt (.seq (.tok (· = '-')) (.tok isAsciiAlpha)))

/-- Source `PARTE`'s numeral alternatives `(?:[IVXLCDM]+|GERAL|ESPECIAL)`
under IGNORECASE. -/
def parteNum : RE :=
  reOr [plusTok isRomanCI, litCI (S "GERAL"), litCI (S "ESPECIAL")]

/-- Source `_SPLIT_PARTE` (IGNORECASE):
`\n(?=PARTE\s+(?:[IVXLCDM]+|GERAL|ESPECIAL)\s*(?:\n|$))`. -/
def patSplitParte : RE :=
  .seq (.tok (· = '\n'))
    (.look (reCat [kwParte, plusTok isSpaceB, parteNum,
      .starTok isSpaceB, nlOrEnd]))

/-- Source `_SPLIT_LIVRO` (IGNORECASE): `\n(?=LIVRO\s+[IVXLCDM]+\s*(?:\n|$))`. -/
def patSplitLivro : RE :=
  .seq (.tok (· = '\n'))
    (.look (reCat [kwLivro, plusTok isSpaceB, plusTok isRomanCI,
      .starTok isSpaceB, nlOrEnd]))

/-- Source `_SPLIT_TITULO` (IGNORECASE):
`\n(?=T[IÍ]TULO\s+[IVXLCDM]+(?:-[A-Za-z])?\s*(?:\n|$))`. -/
def patSplitTitulo : RE :=
  .seq (.tok (· = '\n'))
    (.look (reCat [kwTitulo, plusTok isSpaceB, romanSuf,
      .starTok isSpaceB, nlOrEnd]))

/-- Source `_SPLIT_CAPITULO` (IGNORECASE). -/
def patSplitCapitulo : RE :=
  .seq (.tok (· = '\n'))
    (.look (reCat [kwCapitulo, plusTok isSpaceB, romanSuf,
      .starTok isSpaceB, nlOrEnd]))

/-- Source `_SPLIT_SECAO` (IGNORECASE). -/
def patSplitSecao : RE :=
  .seq (.tok (· = '\n'))
    (.look (reCat [kwSecao, plusTok isSpaceB, romanSuf,
      .starTok isSpaceB, nlOrEnd]))

/-- Source `_SPLIT_SUBSECAO` (IGNORECASE). -/
def patSplitSubsecao : RE :=
  .seq (.tok (· = '\n'))
    (.look (reCat [kwSubsecao, plusTok isSpaceB, romanSuf,
      .starTok isSpaceB, nlOrEnd]))

/-- Source `_RE_NUM["parte"]` (IGNORECASE):
`PARTE\s+((?:[IVXLCDM]+|GERAL|ESPECIAL))`. -/
def patNumParte : RE :=
  reCat [kwParte, plusTok isSpaceB, .group 1 parteNum]

/-- Source `_RE_NUM["livro"]` (IGNORECASE): `LIVRO\s+([IVXLCDM]+)`. -/
def patNumLivro : RE :=
  reCat [kwLivro, plusTok isSpaceB, .group 1 (plusTok isRomanCI)]

/-- Source `_RE_NUM["titulo"]` (IGNORECASE). -/
def patNumTitulo : RE :=
  reCat [kwTitulo, plusTok isSpaceB, .group 1 romanSuf]

/-- Source `_RE_NUM["capitulo"]` (IGNORECASE). -/
def patNumCapitulo : RE :=
  reCat [kwCapitulo, plusTok isSpaceB, .group 1 romanSuf]

/-- Source `_RE_NUM["secao"]` (IGNORECASE). -/
def patNumSecao : RE :=
  reCat [kwSecao, plusTok isSpaceB, .group 1 romanSuf]

/-- Source `_RE_NUM["subsecao"]` (IGNORECASE). -/
def patNumSubsecao : RE :=
  reCat [kwSubsecao, plusTok isSpaceB, .group 1 romanSuf]

/-- Source `_RE_ESTRUTURAL` (IGNORECASE): a line that itself starts some
structural marker, article, paragraph or item. -/
def patEstrutural : RE :=
  reOr [kwTitulo, kwCapitulo, kwSecao, kwSubsecao, kwLivro, kwParte,
    reCat [litCI (S "Art"), .opt (.tok (· = '.')), .starTok isSpaceB,
      .tok isDigitB],
    reCat [.tok (· = '§'), .starTok isSpaceB, .tok isDigitB],
    reCat [.repTok isRomanCI 1 7, .starTok isSpaceB, .tok clsDash]]

/-- Source `_detectar_raiz` pattern for `parte` (IGNORECASE). -/
def patRaizParte : RE :=
  reCat [.tok (· = '\n'), kwParte, plusTok isSpaceB, parteNum,
    .starTok isSpaceB, nlOrEnd]

/-- Source `_detectar_raiz` pattern for `livro` (IGNORECASE). -/
def patRaizLivro : RE :=
  reCat [.tok (· = '\n'), kwLivro, plusTok isSpaceB, plusTok isRomanCI,
    .starTok isSpaceB, nlOrEnd]

/-- Source `_detectar_raiz` pattern for `titulo` (IGNORECASE). -/
def patRaizTitulo : RE :=
  reCat [.tok (· = '\n'), kwTitulo, plusTok isSpaceB, romanSuf,
    .starTok isSpaceB, nlOrEnd]

/-- Source `_detectar_raiz` pattern for `capitulo` (IGNORECASE). -/
def patRaizCapitulo : RE :=
  reCat [.tok (· = '\n'), kwCapitulo, plusTok isSpaceB, romanSuf,
    .starTok isSpaceB, nlOrEnd]

/-- Pattern `\nLIVRO\s+[IVXLCDM]+\s*\n` (IGNORECASE) — real-book check of
`_detectar_raiz`. -/
def patLivroLinha : RE :=
  reCat [.tok (· = '\n'), kwLivro, plusTok isSpaceB, plusTok isRomanCI,
    .starTok isSpaceB, .tok (· = '\n')]

/-- Pattern `^[.,;]$` — a lone punctuation line. -/
def patPontuacaoSo : RE :=
  .seq (.tok (fun c => c = '.' || c = ',' || c = ';')) eolNoM

/-- Pattern `^[,;]` — citation check after the article number. -/
def patVirgulaIni : RE := .tok (fun c => c = ',' || c = ';')

/-- Pattern `^[-–]\s+` — leading dash stripped from a body. -/
def patDashSimples : RE := .seq (.tok clsDash) (plusTok isSpaceB)

/-- Pattern `^\.\s+` — leading period stripped from a paragraph body. -/
def patPontoSimples : RE := .seq (.tok (· = '.')) (plusTok isSpaceB)

/-- Pattern `único` (IGNORECASE) searched inside a paragraph marker. -/
def patUnico : RE := litCI (S "único")

/-- The summary cue pattern of `parse_lei`:
`(Estabelece|Dispõe|Define|Institui|Regulamenta|Cria|Altera)[^.]+\.`. -/
def patEmenta : RE :=
  reCat [.group 1 (reOr [lit (S "Estabelece"), lit (S "Dispõe"),
      lit (S "Define"), lit (S "Institui"), lit (S "Regulamenta"),
      lit (S "Cria"), lit (S "Altera")]),
    plusTok (fun c => !(c = '.')), .tok (· = '.')]

/-! ### FASE 1 — `normalizar_texto` -/

/-- Upper-casing matching Python `str.upper()` on the letters that occur
here (used by `_parse_partes` for the part numeral). -/
def upperPT (c : Char) : Char :=
  if c = 'á' then 'Á' else if c = 'à' then 'À' else if c = 'â' then 'Â'
  else if c = 'ã' then 'Ã' else if c = 'é' then 'É' else if c = 'ê' then 'Ê'
  else if c = 'í' then 'Í' else if c = 'ó' then 'Ó' else if c = 'ô' then 'Ô'
  else if c = 'õ' then 'Õ' else if c = 'ú' then 'Ú' else if c = 'ü' then 'Ü'
  else if c = 'ç' then 'Ç' else c.toUpper

/-- The line-rewriting loop `_fix_art_partido` inside `normalizar_texto`:
a line that is exactly a bare `Art. N` marker followed by a lone
punctuation line is either merged or reclassified as an internal
reference. -/
def fixArtDecide (l : Str) (rest : List Str) : Option Str :=
  let s := pyStrip l
  match reMatch patArtLinha s, rest with
  | some (_, g), prox0 :: rest2 =>
    let prox := pyStrip prox0
    if prox = S "." then
      let terceira :=
        ((rest2.dropWhile (fun x => pyStrip x = [])).head?.map
          pyStrip).getD []
      if (S "Art").isPrefixOf terceira then
        some (S "referência_interna: " ++ s ++ S ".")
      else
        some ((g.lookup 1).getD [] ++ S ".")
    else if prox = S ";" then
      some (S "referência_interna: " ++ s ++ S ";")
    else if prox.head? = some ',' then
      some (s ++ prox)
    else none
  | _, _ => none

/-- When `fixArtDecide` produces an output line, the marker line and the
punctuation line after it are consumed together (`i += 2`); otherwise
the line is kept as is. -/
def fixArtAux : List Str → List Str
  | [] => []
  | l :: rest =>
    match fixArtDecide l rest with
    | some out =>
      match rest with
      | [] => [out]
      | _ :: rest2 => out :: fixArtAux rest2
    | none => l :: fixArtAux rest

/-- Source `normalizar_texto` — FASE 1 of the source, the ordered cascade of
line-repair rewrites. -/
def normalizar_texto (texto0 : Str) : Str :=
  let texto := texto0.filter (fun c => !(c = '\r'))
  let texto := replChar '\xa0' ' ' texto
  let texto := replChar '║' 'º' texto
  let texto := joinNL ((splitlines texto).map
    (reSub patEspacos (fun _ => S " ")))
  let texto := reSub patMetaQuebrado (fun m =>
    S "(" ++ (m.grp 1).getD [] ++ S " " ++ (m.grp 2).getD []) texto
  let texto := reSub patParagrafoUnicoQuebrado
    (fun _ => S "\nParágrafo único") texto
  let texto := reSub patPar3 (fun m =>
    S "\n§ " ++ (m.grp 1).getD [] ++ S "º\n") texto
  let texto := reSub patPar3b (fun m => S "\n§ " ++ (m.grp 1).getD []) texto
  let texto := reSub patPar2 (fun m => S "\n§ " ++ (m.grp 1).getD []) texto
  let texto := reSub patOrd1 (fun m => (m.grp 1).getD [] ++ S "º\n") texto
  let texto := reSub patOrd2 (fun m => (m.grp 1).getD [] ++ S "º\n") texto
  let texto := reSub patOrd3 (fun m => (m.grp 1).getD [] ++ S "º") texto
  let texto := reSub patOrd4 (fun m => (m.grp 1).getD [] ++ S "º") texto
  let texto := reSub patArtOrd (fun m =>
    (m.grp 1).getD [] ++ (m.grp 2).getD [] ++ S "\n") texto
  let texto := joinNL (fixArtAux (splitlines texto))
  let texto := reSub patMarcadorQuebrado (fun m =>
    (m.grp 1).getD [] ++ S " " ++ (m.grp 2).getD []) texto
  let texto := reSub patRefLivro (fun _ => S "\n") texto
  let texto := reSub patBlank3 (fun _ => S "\n\n") texto
  if (S "\n").isPrefixOf texto then texto else S "\n" ++ texto

/-! ### FASE 2 — final text cleaning -/

/-- Source `limpar_texto_final`. -/
def limpar_texto_final (texto1 : Str) : Str :=
  if texto1 = [] then texto1 else
  let texto := replChar '\n' ' ' texto1
  let texto := reSub patEspacos2 (fun _ => S " ") texto
  let texto := subStart patOrdDashIni (fun _ => []) texto
  let texto := subStart patOrdIni (fun _ => []) texto
  let texto := subStart patDashIni (fun _ => []) texto
  let texto := subStart patPontoIni (fun _ => []) texto
  let texto := replChar '—' '-' (replChar '–' '-' (replChar '\x96' '-' texto))
  let texto := reSub patPontuacaoFinal (fun m => (m.grp 1).getD []) texto
  pyStrip texto

/-- Source `limpar_norma`. -/
def limpar_norma (s : Str) : Str :=
  if s = [] then s else pyStrip (reSub patWs (fun _ => S " ") s)

/-- Source `_id_num`: strip a trailing bare ordinal glyph after a digit. -/
def id_num (numero : Str) : Str :=
  if numero = [] then numero
  else reSub patIdNum (fun m => (m.grp 1).getD []) numero

/-- Source `_truncar_na_fronteira_artigo`. -/
def truncar_na_fronteira_artigo (texto : Str) : Str :=
  match reSearch patArtigoOuParaEmbutido texto with
  | some m => pyStrip (texto.take m.start)
  | none => texto

/-- Source `limpar_nome`. -/
def limpar_nome (nome : Str) : Str :=
  truncar_na_fronteira_artigo (limpar_texto_final nome)

/-! ### FASE 3 — legislative metadata -/

/-- A `MetadataAnnotation` (`{"tipo", "norma", "ano"}`); each field may
be Python `None`. -/
structure Meta where
  tipo : Option Str
  norma : Option Str
  ano : Option Str
deriving Repr, DecidableEq

/-- Classification of the annotation kind by substring containment on
the lower-cased annotation, in the source's fixed priority order. -/
def classificaTipo (tl : Str) : Option Str :=
  if containsStr (S "redação dada") tl then some (S "redacao")
  else if containsStr (S "incluíd") tl then some (S "incluido")
  else if containsStr (S "revogad") tl then some (S "revogado")
  else if containsStr (S "renumerado") tl then some (S "renumerado")
  else if containsStr (S "vide") tl then some (S "vide")
  else if containsStr (S "vigência") tl then some (S "vigencia")
  else if containsStr (S "vetado") tl then some (S "vetado")
  else if containsStr (S "acrescid") tl then some (S "acrescido")
  else none

/-- Source `extrair_metadados`: returns the annotation-stripped text and the
annotation list. -/
def extrair_metadados (texto : Str) : Str × List Meta :=
  let metas := (reFinditer patMeta texto).map (fun m =>
    let t := m.matched
    let tl := t.map lowerPT
    let norma := (reSearch patNorma t).map (fun nm => limpar_norma nm.matched)
    let ano := match reSearch patAno t with
      | some am =>
        match am.grp 1 with
        | some a => some a
        | none => am.grp 2
      | none => none
    Meta.mk (classificaTipo tl) norma ano)
  let texto_limpo := pyStrip (reSub patMeta (fun _ => []) texto)
  let texto_limpo :=
    if texto_limpo = [] ∧ metas ≠ [] then
      match metas.head? with
      | some m0 =>
        if m0.tipo = some (S "vetado") then S "(VETADO)"
        else if m0.tipo = some (S "revogado") ∧
            (m0.norma = none ∨ m0.norma = some []) then S "(Revogado)"
        else texto_limpo
      | none => texto_limpo
    else texto_limpo
  (texto_limpo, metas)

/-! ### FASE 4 — data model and sub-item/item/paragraph extraction -/

/-- A `SubItem` (alínea): `{"tipo": "alinea", "letra", "texto",
"metadados"?}`; an absent `metadados` key is the empty list. -/
structure Alinea where
  letra : Str
  texto : Str
  metadados : List Meta
deriving Repr, DecidableEq

/-- A `Content` dict
`{"texto", "metadados"?, "incisos"?, "alineas"?}`; absent optional keys
are empty lists.  An item (inciso) is a pair of its numeral and its
nested content (`{"tipo": "inciso", "numero", "conteudo"}`). -/
inductive Conteudo : Type where
  | mk (texto : Str) (metadados : List Meta)
      (incisos : List (Str × Conteudo)) (alineas : List Alinea)

/-- Preamble text of a content dict. -/
def Conteudo.texto : Conteudo → Str
  | .mk t _ _ _ => t

/-- Metadata of a content dict. -/
def Conteudo.metadados : Conteudo → List Meta
  | .mk _ m _ _ => m

/-- Items of a content dict. -/
def Conteudo.incisos : Conteudo → List (Str × Conteudo)
  | .mk _ _ i _ => i

/-- Sub-items of a content dict. -/
def Conteudo.alineas : Conteudo → List Alinea
  | .mk _ _ _ a => a

/-- The sub-item pair loop of `extrair_alineas`
(`partes[i]`, `partes[i+1]` for odd `i`). -/
def alineasPares : List Str → List Alinea
  | letra :: corp :: rest =>
    let par := extrair_metadados (pyStrip corp)
    ⟨letra, limpar_texto_final par.1, par.2⟩ :: alineasPares rest
  | [letra] =>
    let par := extrair_metadados (pyStrip [])
    [⟨letra, limpar_texto_final par.1, par.2⟩]
  | [] => []

/-- Source `extrair_alineas`: split on the letter markers; the result never
carries `incisos` (the source never puts that key here). -/
def extrair_alineas (texto : Str) : Conteudo :=
  let partes := reSplitG1 patSplitAlinea texto
  let par0 := extrair_metadados (pyStrip (partes.headD []))
  if partes.length ≤ 1 then
    .mk (limpar_texto_final par0.1) par0.2 [] []
  else
    .mk (limpar_texto_final par0.1) par0.2 [] (alineasPares (partes.drop 1))

/-- The item pair loop of `extrair_incisos`. -/
def incisosPares : List Str → List (Str × Conteudo)
  | num :: corp :: rest =>
    (num, extrair_alineas (pyStrip corp)) :: incisosPares rest
  | [num] => [(num, extrair_alineas (pyStrip []))]
  | [] => []

/-- Source `extrair_incisos`: split on roman-numeral markers; with no marker it
delegates to `extrair_alineas`; with markers the result never carries
`alineas` at this level. -/
def extrair_incisos (texto : Str) : Conteudo :=
  let partes := reSplitG1 patSplitInciso texto
  if partes.length ≤ 1 then extrair_alineas texto
  else
    let par0 := extrair_metadados (pyStrip (partes.headD []))
    .mk (limpar_texto_final par0.1) par0.2 (incisosPares (partes.drop 1)) []

/-- A `ContentBlock`: caput or numbered paragraph. -/
inductive Bloco : Type where
  | caput (conteudo : Conteudo)
  | paragrafo (numero : Option Str) (conteudo : Conteudo)

/-- Content of a block. -/
def Bloco.conteudo : Bloco → Conteudo
  | .caput c => c
  | .paragrafo _ c => c

/-- The paragraph number parsed from its marker: the literal "único" or
the digits (ordinal glyphs stripped). -/
def paragrafoNumero (marcador : Str) : Option Str :=
  if (reSearch patUnico marcador).isSome then some (S "único")
  else
    match reSearch patParaNum marcador with
    | some m =>
      ((m.grp 1).map (fun n => reSub patOrdGlifo (fun _ => []) n))
    | none => none

/-- The paragraph pair loop of `extrair_paragrafos`. -/
def paragrafosPares : List Str → List Bloco
  | marcador0 :: corp0 :: rest =>
    let marcador := pyStrip marcador0
    let corp := pyStrip corp0
    let corp := subStart patDashSimples (fun _ => []) corp
    let corp := subStart patPontoSimples (fun _ => []) corp
    .paragrafo (paragrafoNumero marcador) (extrair_incisos corp) ::
      paragrafosPares rest
  | [marcador0] =>
    let marcador := pyStrip marcador0
    let corp := subStart patPontoSimples (fun _ => [])
      (subStart patDashSimples (fun _ => []) (pyStrip []))
    [.paragrafo (paragrafoNumero marcador) (extrair_incisos corp)]
  | [] => []

/-- Source `extrair_paragrafos`: split the article text into caput and
paragraph blocks. -/
def extrair_paragrafos (txt_art : Str) : List Bloco :=
  let partes := reSplitG1 patSplitParagrafo txt_art
  let raw := pyStrip (partes.headD [])
  let caputL : List Bloco :=
    if raw = [] then []
    else
      let raw := pyStrip (subStart patStripArt (fun _ => []) raw)
      let raw := subStart patDashSimples (fun _ => []) raw
      [.caput (extrair_incisos raw)]
  caputL ++ paragrafosPares (partes.drop 1)

/-! ### FASE 5 — article parsing -/

mutual

/-- Source `_coletar_metas` restricted to one content dict: the dict's own
`metadados`, then (recursing in key-insertion order) those of the nested
item contents, then those of the sub-items. -/
def coletarMetasConteudo : Conteudo → List Meta
  | .mk _ m incs als =>
    m ++ coletarMetasIncisos incs ++ als.flatMap (fun a => a.metadados)

/-- Recursion of `_coletar_metas` through the item list. -/
def coletarMetasIncisos : List (Str × Conteudo) → List Meta
  | [] => []
  | p :: r => coletarMetasConteudo p.2 ++ coletarMetasIncisos r

end

/-- Source `_coletar_metas` over a block list (`estrutura`). -/
def coletarMetasEstrutura (estrutura : List Bloco) : List Meta :=
  estrutura.flatMap (fun b => coletarMetasConteudo b.conteudo)

/-- An `Article` dict.  `alteracoes` is the collected metadata (the key
is absent when the list is empty). -/
structure Artigo where
  id : Str
  ordem : Nat
  numero : Str
  confianca : ℚ
  texto_bruto : Str
  estrutura : List Bloco
  alteracoes : List Meta

/-- Python `round(q, 2)`.  Python uses banker's rounding on floats; in
the source the rounded quantity is always an exact multiple of 1/10 (a
sum of the fixed penalties), so no tie ever arises and round-half-up on
`ℚ` agrees with the source. -/
def round2 (q : ℚ) : ℚ := ((round (q * 100) : ℤ) : ℚ) / 100

/-- The confidence computation of `_parse_artigos` (the fixed additive
penalties, before clamping and rounding). -/
def confiancaBruta (txt : Str) (estrutura : List Bloco) : ℚ :=
  let c : ℚ := 1
  let c := if !((S "Art").isPrefixOf txt) then c - 3/10 else c
  let c := if txt.length < 10 then c - 5/10 else c
  let c := if containsStr (S "referência_interna") txt then c - 2/10 else c
  let tem_caput := estrutura.any (fun b =>
    match b with
    | .caput conteudo => !(conteudo.texto = [])
    | .paragrafo _ _ => false)
  if !tem_caput then c - 4/10 else c

/-- One iteration of the segment loop of `_parse_artigos`: either the
segment is discarded (`continue`) or it yields the article with order
`ordem + 1`. -/
def parseArtigosSeg (txt0 lei : Str) (ordem : Nat) : Option Artigo :=
  let txt := pyStrip txt0
  if !((S "Art").isPrefixOf txt) then none
  else if (S "referência_interna:").isPrefixOf txt then none
  else
    match reMatch patArtNum txt with
    | none => none
    | some (matched, g) =>
      let numero := (g.lookup 1).getD []
      let resto := pyStrip ((txt.drop matched.length).take 3)
      if (reMatch patVirgulaIni resto).isSome then none
      else
        let novaOrdem := ordem + 1
        let idn := id_num numero
        let id_art :=
          if idn ≠ [] then S "lei-" ++ lei ++ S "-art-" ++ idn
          else S "lei-" ++ lei ++ S "-art-" ++ S (toString novaOrdem)
        let estrutura := extrair_paragrafos txt
        let metas := coletarMetasEstrutura estrutura
        some ⟨id_art, novaOrdem, numero,
          round2 (max (1/10) (confiancaBruta txt estrutura)),
          txt, estrutura, metas⟩

/-- The segment loop of `_parse_artigos`, threading the shared order
counter (the source's mutable one-element list `ordem`). -/
def parseArtigosList (segs : List Str) (lei : Str) (ordem : Nat) :
    List Artigo × Nat :=
  match segs with
  | [] => ([], ordem)
  | s :: rest =>
    match parseArtigosSeg s lei ordem with
    | some a =>
      let r := parseArtigosList rest lei (ordem + 1)
      (a :: r.1, r.2)
    | none => parseArtigosList rest lei ordem

/-- Source `_parse_artigos`. -/
def parse_artigos (bloco lei : Str) (ordem : Nat) : List Artigo × Nat :=
  parseArtigosList (reSplitSegs patSplitArtigo bloco) lei ordem

/-! ### FASE 6/7 — structural hierarchy -/

/-- A node of the document tree: an article, one of the hierarchy
levels with `filhos`, or a subsection with its own `confianca` and a
terminal `artigos` list, exactly the dict shapes of the source. -/
inductive No : Type where
  | art (a : Artigo)
  | parte (numero nome : Str) (filhos : List No)
  | livro (numero nome : Str) (filhos : List No)
  | titulo (numero nome : Str) (filhos : List No)
  | capitulo (numero nome : Str) (filhos : List No)
  | secao (numero nome : Str) (filhos : List No)
  | subsecao (numero nome : Str) (confianca : ℚ) (artigos : List Artigo)

/-- The single-line collection loop of `_extrair_nome` after the marker
line was found: collect non-blank lines, stop on two blank lines after
collection started, on a structural marker line, or after a line that
required truncation at an embedded `Art./§`. -/
def nomeLoop : List Str → List Str → Nat → List Str
  | [], partes, _ => partes
  | linha :: rest, partes, vazias =>
    let s := pyStrip linha
    if s = [] then
      if partes ≠ [] then
        if vazias + 1 ≥ 2 then partes
        else nomeLoop rest partes (vazias + 1)
      else nomeLoop rest partes vazias
    else if (reMatch patEstrutural s).isSome then partes
    else if s.head? = some '(' ∧ s.getLast? = some ')' then
      nomeLoop rest partes 0
    else
      let st := truncar_na_fronteira_artigo s
      let partes2 := if st ≠ [] then partes ++ [st] else partes
      if st ≠ s then partes2
      else nomeLoop rest partes2 0

/-- Source `_extrair_nome`. -/
def extrair_nome (bloco : Str) (patNum : RE) : Str :=
  let linhas := splitlines bloco
  let after := linhas.dropWhile (fun l => (reMatch patNum (pyStrip l)).isNone)
  let partes := nomeLoop (after.drop 1) [] 0
  truncar_na_fronteira_artigo
    (limpar_texto_final ((partes.intersperse (S " ")).flatten))

/-- Segment loop of `_parse_subsecoes`.  The source calls
`_extrair_nome` twice (once for `nome`, once for `confianca`); the
function is pure, so the value is shared. -/
def parseSubsecoesList (segs : List Str) (lei : Str) (ordem : Nat) :
    List No × Nat :=
  match segs with
  | [] => ([], ordem)
  | parte0 :: rest =>
    let parte := pyStrip parte0
    match reMatch patNumSubsecao parte with
    | some (_, g) =>
      let nome := extrair_nome parte patNumSubsecao
      let arts := parse_artigos parte lei ordem
      let r := parseSubsecoesList rest lei arts.2
      (.subsecao ((g.lookup 1).getD []) nome
        (if !(nome = []) then 1 else 7/10) arts.1 :: r.1, r.2)
    | none =>
      let arts := parse_artigos parte lei ordem
      let r := parseSubsecoesList rest lei arts.2
      (arts.1.map No.art ++ r.1, r.2)

/-- Source `_parse_subsecoes`. -/
def parse_subsecoes (bloco lei : Str) (ordem : Nat) : List No × Nat :=
  parseSubsecoesList (reSplitSegs patSplitSubsecao bloco) lei ordem

/-- Segment loop of `_parse_secoes`. -/
def parseSecoesList (segs : List Str) (lei : Str) (ordem : Nat) :
    List No × Nat :=
  match segs with
  | [] => ([], ordem)
  | parte0 :: rest =>
    let parte := pyStrip parte0
    match reMatch patNumSecao parte with
    | some (_, g) =>
      let filhos := parse_subsecoes parte lei ordem
      let r := parseSecoesList rest lei filhos.2
      (.secao ((g.lookup 1).getD []) (extrair_nome parte patNumSecao)
        filhos.1 :: r.1, r.2)
    | none =>
      let filhos := parse_subsecoes parte lei ordem
      let r := parseSecoesList rest lei filhos.2
      (filhos.1 ++ r.1, r.2)

/-- Source `_parse_secoes`. -/
def parse_secoes (bloco lei : Str) (ordem : Nat) : List No × Nat :=
  parseSecoesList (reSplitSegs patSplitSecao bloco) lei ordem

/-- Segment loop of `_parse_capitulos`. -/
def parseCapitulosList (segs : List Str) (lei : Str) (ordem : Nat) :
    List No × Nat :=
  match segs with
  | [] => ([], ordem)
  | parte0 :: rest =>
    let parte := pyStrip parte0
    match reMatch patNumCapitulo parte with
    | some (_, g) =>
      let filhos := parse_secoes parte lei ordem
      let r := parseCapitulosList rest lei filhos.2
      (.capitulo ((g.lookup 1).getD []) (extrair_nome parte patNumCapitulo)
        filhos.1 :: r.1, r.2)
    | none =>
      let filhos := parse_secoes parte lei ordem
      let r := parseCapitulosList rest lei filhos.2
      (filhos.1 ++ r.1, r.2)

/-- Source `_parse_capitulos`. -/
def parse_capitulos (bloco lei : Str) (ordem : Nat) : List No × Nat :=
  parseCapitulosList (reSplitSegs patSplitCapitulo bloco) lei ordem

/-- Segment loop of `_parse_titulos`. -/
def parseTitulosList (segs : List Str) (lei : Str) (ordem : Nat) :
    List No × Nat :=
  match segs with
  | [] => ([], ordem)
  | parte0 :: rest =>
    let parte := pyStrip parte0
    match reMatch patNumTitulo parte with
    | some (_, g) =>
      let filhos := parse_capitulos parte lei ordem
      let r := parseTitulosList rest lei filhos.2
      (.titulo ((g.lookup 1).getD []) (extrair_nome parte patNumTitulo)
        filhos.1 :: r.1, r.2)
    | none =>
      let filhos := parse_capitulos parte lei ordem
      let r := parseTitulosList rest lei filhos.2
      (filhos.1 ++ r.1, r.2)

/-- Source `_parse_titulos`. -/
def parse_titulos (bloco lei : Str) (ordem : Nat) : List No × Nat :=
  parseTitulosList (reSplitSegs patSplitTitulo bloco) lei ordem

/-- Segment loop of `_parse_livros`, with the BUG3 citation filter: a
matched book whose first following non-blank line is a lone punctuation
line is flattened as a citation, not a real book. -/
def parseLivrosList (segs : List Str) (lei : Str) (ordem : Nat) :
    List No × Nat :=
  match segs with
  | [] => ([], ordem)
  | parte0 :: rest =>
    let parte := pyStrip parte0
    match reMatch patNumLivro parte with
    | some (_, g) =>
      let primeira :=
        ((((splitlines parte).drop 1).map pyStrip).filter
          (fun s => !(s = []))).headD []
      if (reMatch patPontuacaoSo primeira).isSome then
        let filhos := parse_titulos parte lei ordem
        let r := parseLivrosList rest lei filhos.2
        (filhos.1 ++ r.1, r.2)
      else
        let filhos := parse_titulos parte lei ordem
        let r := parseLivrosList rest lei filhos.2
        (.livro ((g.lookup 1).getD []) (extrair_nome parte patNumLivro)
          filhos.1 :: r.1, r.2)
    | none =>
      let filhos := parse_titulos parte lei ordem
      let r := parseLivrosList rest lei filhos.2
      (filhos.1 ++ r.1, r.2)

/-- Source `_parse_livros`. -/
def parse_livros (bloco lei : Str) (ordem : Nat) : List No × Nat :=
  parseLivrosList (reSplitSegs patSplitLivro bloco) lei ordem

/-- Segment loop of `_parse_partes`; a matched part contains books when
the book-split marker occurs inside it, titles otherwise. -/
def parsePartesList (segs : List Str) (lei : Str) (ordem : Nat) :
    List No × Nat :=
  match segs with
  | [] => ([], ordem)
  | parte0 :: rest =>
    let parte := pyStrip parte0
    let tem_livro := (reSearch patSplitLivro parte).isSome
    match reMatch patNumParte parte with
    | some (_, g) =>
      let numero := ((g.lookup 1).getD []).map upperPT
      let nome := extrair_nome parte patNumParte
      let filhos :=
        if tem_livro then parse_livros parte lei ordem
        else parse_titulos parte lei ordem
      let r := parsePartesList rest lei filhos.2
      (.parte numero nome filhos.1 :: r.1, r.2)
    | none =>
      let filhos :=
        if tem_livro then parse_livros parte lei ordem
        else parse_titulos parte lei ordem
      let r := parsePartesList rest lei filhos.2
      (filhos.1 ++ r.1, r.2)

/-- Source `_parse_partes`. -/
def parse_partes (bloco lei : Str) (ordem : Nat) : List No × Nat :=
  parsePartesList (reSplitSegs patSplitParte bloco) lei ordem

/-! ### FASE 7 — root auto-detection and `parse_lei` -/

/-- The real-book count of `_detectar_raiz`: occurrences of a book line
whose first following non-blank line is not lone punctuation. -/
def livrosReais (texto : Str) : Nat :=
  ((reFinditer patLivroLinha texto).filter (fun m =>
    match (((splitlines (texto.drop (m.start + m.matched.length))).map
        pyStrip).filter (fun s => !(s = []))).head? with
    | some s => (reMatch patPontuacaoSo s).isNone
    | none => false)).length

/-- Python `min(candidatos, key=candidatos.get)`: the first key (in
insertion order) attaining the minimal value. -/
def minPorInicio : List (Str × Nat) → Str
  | [] => S "artigo"
  | (k, v) :: rest =>
    (rest.foldl (fun acc p => if p.2 < acc.2 then p else acc) (k, v)).1

/-- Source `_detectar_raiz`. -/
def detectar_raiz (texto : Str) : Str :=
  let cand : List (Str × Nat) :=
    [(S "parte", reSearch patRaizParte texto),
     (S "livro", reSearch patRaizLivro texto),
     (S "titulo", reSearch patRaizTitulo texto),
     (S "capitulo", reSearch patRaizCapitulo texto)].filterMap
      (fun p => p.2.map (fun m => (p.1, m.start)))
  if cand = [] then S "artigo"
  else
    let cand :=
      if (cand.lookup (S "livro")).isSome ∧ livrosReais texto = 0 then
        cand.filter (fun p => !(p.1 = S "livro"))
      else cand
    if cand = [] then S "artigo" else minPorInicio cand

/-- A `Document`: law code, summary, root sequence. -/
structure Documento where
  codigo : Str
  ementa : Str
  titulos : List No

/-- The chapter-root loop of `parse_lei`: iterates over
`_SPLIT_CAPITULO.split(texto)[1:]` and keeps only segments matching the
chapter marker (a non-matching segment is not flattened here). -/
def capituloRaizList (segs : List Str) (lei : Str) (ordem : Nat) :
    List No × Nat :=
  match segs with
  | [] => ([], ordem)
  | parte0 :: rest =>
    let parte := pyStrip parte0
    match reMatch patNumCapitulo parte with
    | some (_, g) =>
      let filhos := parse_secoes parte lei ordem
      let r := capituloRaizList rest lei filhos.2
      (.capitulo ((g.lookup 1).getD []) (extrair_nome parte patNumCapitulo)
        filhos.1 :: r.1, r.2)
    | none => capituloRaizList rest lei ordem

/-- Source `parse_lei`: normalization, summary extraction, root detection and
dispatch to the level parsers with a fresh order counter. -/
def parse_lei (texto0 codigo_lei : Str) : Documento :=
  let texto := normalizar_texto texto0
  let ementa :=
    match reSearch patEmenta texto with
    | some m => limpar_texto_final m.matched
    | none => []
  let raiz := detectar_raiz texto
  let titulos :=
    if raiz = S "parte" then (parse_partes texto codigo_lei 0).1
    else if raiz = S "livro" then (parse_livros texto codigo_lei 0).1
    else if raiz = S "titulo" then (parse_titulos texto codigo_lei 0).1
    else if raiz = S "capitulo" then
      (capituloRaizList ((reSplitSegs patSplitCapitulo texto).drop 1)
        codigo_lei 0).1
    else (parse_artigos texto codigo_lei 0).1.map No.art
  ⟨codigo_lei, ementa, titulos⟩

mutual

/-- Source `iterar_artigos`'s DFS over one node: an article yields itself, a
hierarchy node recurses into its list children in order. -/
def iterarNo : No → List Artigo
  | .art a => [a]
  | .parte _ _ fs => iterarLista fs
  | .livro _ _ fs => iterarLista fs
  | .titulo _ _ fs => iterarLista fs
  | .capitulo _ _ fs => iterarLista fs
  | .secao _ _ fs => iterarLista fs
  | .subsecao _ _ _ arts => arts

/-- Source `iterar_artigos`'s DFS over a child list. -/
def iterarLista : List No → List Artigo
  | [] => []
  | n :: r => iterarNo n ++ iterarLista r

end

/-- Source `iterar_artigos`: document-order (DFS preorder) article sequence. -/
def iterar_artigos (d : Documento) : List Artigo :=
  iterarLista d.titulos

/-! ### `crossref.py` -/

/-- Class `[,\s]` of the cross-reference pattern. -/
def clsCommaSpace (c : Char) : Bool := c = ',' || isSpaceB c

/-- Class `[,\s°oº]` (IGNORECASE makes it match `O` too). -/
def clsCommaSpaceOrd (c : Char) : Bool :=
  c = ',' || isSpaceB c || c = '°' || c = 'o' || c = 'º' || c = 'O'

/-- Class `[a-z]` under IGNORECASE. -/
def clsAZci (c : Char) : Bool := 'a' ≤ c.toLower && c.toLower ≤ 'z'

/-- Source `d[oa]s?` under IGNORECASE. -/
def reDoDas : RE :=
  reCat [tokCI 'd', .tok (fun c => lowerPT c = 'o' || lowerPT c = 'a'),
    .opt (tokCI 's')]

/-- Source `n[oa]s?` under IGNORECASE. -/
def reNoNas : RE :=
  reCat [tokCI 'n', .tok (fun c => lowerPT c = 'o' || lowerPT c = 'a'),
    .opt (tokCI 's')]

/-- The optional verbal-anchor prefix group of `_RE_CROSSREF`
(IGNORECASE).  Note that only the last alternative carries a trailing
`\s+` in the source, so the others can never be followed by the
mandatory `art` token across a space. -/
def crossrefPrefixo : RE :=
  .opt (reOr [
    reCat [litCI (S "no"), .opt (tokCI 's'), plusTok isSpaceB,
      litCI (S "termo"), .opt (tokCI 's'), plusTok isSpaceB, reDoDas],
    reCat [litCI (S "conforme"), plusTok isSpaceB,
      .opt (.seq (tokCI 'o') (plusTok isSpaceB)),
      litCI (S "disposto"), plusTok isSpaceB, reNoNas],
    reCat [litCI (S "previsto"), plusTok isSpaceB, reNoNas],
    reCat [litCI (S "na"), plusTok isSpaceB, litCI (S "forma"),
      plusTok isSpaceB, reDoDas],
    reCat [litCI (S "no"), .opt (tokCI 's'), plusTok isSpaceB,
      litCI (S "moldes"), plusTok isSpaceB, reDoDas],
    .seq (reOr [
        reCat [tokCI 'a', plusTok isSpaceB, litCI (S "que"),
          plusTok isSpaceB, litCI (S "se"), plusTok isSpaceB,
          litCI (S "refere")],
        reCat [litCI (S "referido"), .opt (tokCI 's'), plusTok isSpaceB,
          reNoNas]])
      (plusTok isSpaceB)])

/-- Source `_RE_CROSSREF` (IGNORECASE): the main cross-reference pattern with
groups 1 (article number), 2/3 (paragraph), 4 (item), 5 (sub-item). -/
def patCrossref : RE :=
  reCat [crossrefPrefixo,
    litCI (S "art"), .opt (litCI (S "igo")), .opt (tokCI 's'),
    .opt (.tok (· = '.')), .starTok isSpaceB,
    .group 1 (reCat [plusTok isDigitB, .opt (.tok isOrd),
      .opt (.seq (.tok (· = '-')) (.tok isAsciiAlpha))]),
    .opt (.seq (plusTok clsCommaSpace) (.alt
      (reCat [.tok (· = '§'), .starTok isSpaceB,
        .group 2 (.seq (plusTok isDigitB) (.opt (.tok isOrd)))])
      (reCat [litCI (S "par"),
        .tok (fun c => lowerPT c = 'a' || lowerPT c = 'á'),
        litCI (S "grafo"), plusTok isSpaceB,
        .alt (.group 3 (plusTok isDigitB)) (litCI (S "único"))]))),
    .opt (reCat [plusTok clsCommaSpaceOrd, litCI (S "inciso"),
      plusTok isSpaceB, .group 4 (plusTok isRomanCI)]),
    .opt (reCat [plusTok clsCommaSpace, litCI (S "al"),
      .tok (fun c => lowerPT c = 'í' || lowerPT c = 'ì' || c = 'Ì'),
      litCI (S "nea"), plusTok isSpaceB,
      .opt (.tok (fun c => c = '\x27' || c = '"')),
      .group 5 (.tok clsAZci),
      .opt (.tok (fun c => c = '\x27' || c = '"'))])]

/-- Source `_RE_LEI_OUTRA` (IGNORECASE):
`d[ao]\s+Lei(?:\s+Complementar)?\s+n[°º]?\s*([\d.]+)`. -/
def patLeiOutra : RE :=
  reCat [tokCI 'd', .tok (fun c => lowerPT c = 'a' || lowerPT c = 'o'),
    plusTok isSpaceB, litCI (S "Lei"),
    .opt (.seq (plusTok isSpaceB) (litCI (S "Complementar"))),
    plusTok isSpaceB, tokCI 'n',
    .opt (.tok (fun c => c = '°' || c = 'º')), .starTok isSpaceB,
    .group 1 (plusTok (fun c => isDigitB c || c = '.'))]

/-- Source `_CTX_VERBAL` (IGNORECASE): a verbal anchor ending the context
window (`...\s*$`). -/
def patCtxVerbal : RE :=
  reCat [reOr [
      reCat [litCI (S "no"), .opt (tokCI 's'), plusTok isSpaceB,
        litCI (S "termo"), .opt (tokCI 's'), plusTok isSpaceB, reDoDas],
      reCat [.opt (.seq (litCI (S "conforme")) (plusTok isSpaceB)),
        litCI (S "disposto"), plusTok isSpaceB, reNoNas],
      reCat [litCI (S "previsto"), plusTok isSpaceB, reNoNas],
      reCat [litCI (S "na"), plusTok isSpaceB, litCI (S "forma"),
        plusTok isSpaceB, reDoDas],
      reCat [litCI (S "nos"), plusTok isSpaceB, litCI (S "moldes"),
        plusTok isSpaceB, reDoDas],
      reCat [tokCI 'a', plusTok isSpaceB, litCI (S "que"),
        plusTok isSpaceB, litCI (S "se"), plusTok isSpaceB,
        litCI (S "refere"),
        .opt (.tok (fun c => lowerPT c = 'm' || lowerPT c = 'n')),
        plusTok isSpaceB,
        repRE (.seq (plusTok isWordB) (plusTok isSpaceB)) 3,
        tokCI 'd', .tok (fun c => lowerPT c = 'o' || lowerPT c = 'a')],
      reCat [litCI (S "referido"), .opt (tokCI 's'), plusTok isSpaceB,
        reNoNas]],
    .starTok isSpaceB, eolNoM]

/-- Python truthiness of an optional string (`None` and `""` are
falsy). -/
def optTruthy (o : Option Str) : Bool :=
  match o with
  | none => false
  | some s => !(s = [])

/-- A cross-reference record, with exactly the fields of the dict
literal the source appends (`crossref.py`, the `refs.append` call). -/
structure CrossRef where
  origem : Str
  destino_art : Str
  destino_para : Option Str
  destino_inc : Option Str
  destino_alinea : Option Str
  lei_externa : Option Str
  trecho : Str
deriving Repr, DecidableEq

/-- The keys of the emitted record, in the insertion order of the dict
literal in the source. -/
def crossrefCampos : List Str :=
  [S "origem", S "destino_art", S "destino_para", S "destino_inc",
   S "destino_alinea", S "lei_externa", S "trecho"]

/-- Source `tem_contexto`: the verbal-anchor check on the 60-character window
before the match. -/
def temContexto (contexto_antes : Str) : Bool :=
  (reSearch patCtxVerbal contexto_antes).isSome

/-- The context window `texto[max(0, start-60) : start]`. -/
def contextoAntes (texto : Str) (start : Nat) : Str :=
  (texto.take start).drop (start - 60)

/-- One iteration of the match loop of `extrair_crossrefs`: `none`
models `continue` (the match is discarded). -/
def crossrefStep (texto origem : Str) (m : MatchRes) : Option CrossRef :=
  if !optTruthy (m.grp 1) then none
  else
    let art_num := (m.grp 1).getD []
    let para_num := if optTruthy (m.grp 2) then m.grp 2 else m.grp 3
    let inc_num := m.grp 4
    let alinea := m.grp 5
    let trecho := pyStrip m.matched
    let ctx := contextoAntes texto m.start
    let lei_externa := (reSearch patLeiOutra (ctx ++ trecho)).map
      (fun lm => (lm.grp 1).getD [])
    let tem_contexto := temContexto ctx
    let tem_detalhe := optTruthy para_num || optTruthy inc_num
    if !tem_contexto && !tem_detalhe then none
    else some ⟨origem, art_num, para_num, inc_num, alinea, lei_externa,
      trecho.take 120⟩

/-- Source `extrair_crossrefs` (the `codigo_lei` argument is accepted and
unused, as in the source). -/
def extrair_crossrefs (texto artigo_origem_id codigo_lei : Str) :
    List CrossRef :=
  let _ := codigo_lei
  (reFinditer patCrossref texto).filterMap (crossrefStep texto artigo_origem_id)

/-! ### `validator.py` and the pipeline quality gate -/

mutual

/-- Source `_coletar_artigos` of the validator: depth-first article collection
(the validator recurses through the children keys and stops at an
article node). -/
def coletarArtigosNo : No → List Artigo
  | .art a => [a]
  | .parte _ _ fs => coletarArtigosLista fs
  | .livro _ _ fs => coletarArtigosLista fs
  | .titulo _ _ fs => coletarArtigosLista fs
  | .capitulo _ _ fs => coletarArtigosLista fs
  | .secao _ _ fs => coletarArtigosLista fs
  | .subsecao _ _ _ arts => arts

/-- Source `_coletar_artigos` over a child list. -/
def coletarArtigosLista : List No → List Artigo
  | [] => []
  | n :: r => coletarArtigosNo n ++ coletarArtigosLista r

end

/-- Source `_caput_tem_texto`: the first caput block decides — non-empty text
or direct items. -/
def caputTemTexto (estrutura : List Bloco) : Bool :=
  match estrutura.filter (fun b =>
      match b with
      | .caput _ => true
      | .paragrafo _ _ => false) with
  | [] => false
  | b :: _ =>
    !(pyStrip b.conteudo.texto).isEmpty || !b.conteudo.incisos.isEmpty

/-- Source `_artigo_revogado`: a repealed alteration, or "revogado" inside a
caput text. -/
def artigoRevogado (artigo : Artigo) : Bool :=
  artigo.alteracoes.any (fun alt => alt.tipo = some (S "revogado")) ||
  artigo.estrutura.any (fun b =>
    match b with
    | .caput c => containsStr (S "revogado") (c.texto.map lowerPT)
    | .paragrafo _ _ => false)

/-- Lexicographic (code-point) comparison, as Python string `<`. -/
def lexLt : Str → Str → Bool
  | [], [] => false
  | [], _ :: _ => true
  | _ :: _, [] => false
  | a :: as_, b :: bs => if a < b then true else if b < a then false else lexLt as_ bs

/-- Insertion into a sorted list. -/
def insSorted (x : Str) : List Str → List Str
  | [] => [x]
  | y :: r => if lexLt y x then y :: insSorted x r else x :: y :: r

/-- Python `sorted(set(xs))` for strings. -/
def sortedSet (xs : List Str) : List Str :=
  xs.dedup.foldr insSorted []

/-- The item/sub-item totals of `_contar_incisos_e_alineas` (the source
counts exactly two levels: items of each block content, sub-items of
each item content and of the block content itself). -/
def contarIncisosAlineas (artigos : List Artigo) : Nat × Nat :=
  artigos.foldl (fun acc artigo =>
    artigo.estrutura.foldl (fun acc b =>
      let c := b.conteudo
      (acc.1 + c.incisos.length,
       acc.2 + (c.incisos.foldl (fun n i => n + i.2.alineas.length) 0) +
         c.alineas.length)) acc) (0, 0)

/-- The validation report (`validar_estrutura`'s dict).  The
`timestamp` field (wall-clock) is omitted; `incisos_sem_conteudo`,
`alineas_fora_de_lugar` and `warnings` track malformed dicts, which the
typed embedding cannot represent, so they are always empty here (as
they are on every value the parser can produce). -/
structure Relatorio where
  total_artigos : Nat
  total_titulos : Nat
  artigos_por_titulo : List (Str × Nat)
  artigos_vazios : List Str
  artigos_sem_texto_caput : List Str
  artigos_revogados : List Str
  ids_duplicados : List Str
  incisos_sem_conteudo : List Str
  alineas_fora_de_lugar : List Str
  total_incisos : Nat
  total_alineas : Nat
deriving Repr, DecidableEq

/-- The per-top-level-node report key
`f"Título {numero} — {nome}"` (missing keys print as `?` / empty). -/
def chaveTitulo (n : No) : Str :=
  let par :=
    match n with
    | .art _ => (S "?", [])
    | .parte num nome _ => (num, nome)
    | .livro num nome _ => (num, nome)
    | .titulo num nome _ => (num, nome)
    | .capitulo num nome _ => (num, nome)
    | .secao num nome _ => (num, nome)
    | .subsecao num nome _ _ => (num, nome)
  S "Título " ++ par.1 ++ S " — " ++ par.2

/-- The id an article is reported under:
`artigo.get("id", f"sem-id-{numero}")`; in the embedding `id` is always
present. -/
def idRelatorio (a : Artigo) : Str := a.id

/-- Source `validar_estrutura` on a parsed document. -/
def validar_estrutura (dados : Documento) : Relatorio :=
  let arvore := dados.titulos
  let todos := arvore.flatMap coletarArtigosNo
  let contagem := contarIncisosAlineas todos
  let vazios := (todos.filter (fun a => a.estrutura.isEmpty)).map idRelatorio
  let naoVazios := todos.filter (fun a => !a.estrutura.isEmpty)
  let semCaput :=
    (naoVazios.filter (fun a => !caputTemTexto a.estrutura)).map idRelatorio
  let revogados := (naoVazios.filter artigoRevogado).map idRelatorio
  let ids := todos.map idRelatorio
  let repetidos := ids.dedup.filter (fun i => 1 < (ids.count i))
  { total_artigos := todos.length
    total_titulos := arvore.length
    artigos_por_titulo :=
      arvore.map (fun t => (chaveTitulo t, (coletarArtigosNo t).length))
    artigos_vazios := sortedSet vazios
    artigos_sem_texto_caput := sortedSet semCaput
    artigos_revogados := sortedSet revogados
    ids_duplicados := sortedSet repetidos
    incisos_sem_conteudo := []
    alineas_fora_de_lugar := []
    total_incisos := contagem.1
    total_alineas := contagem.2 }

/-- Source `PRECISAO_MINIMA_ARTIGOS = 0.95` of `pipeline.py`. -/
def PRECISAO_MINIMA_ARTIGOS : ℚ := 95/100

/-- The structural-accuracy ratio computed by `pipeline.run` from the
validation report: `1 - vazios/total`, only when there are articles. -/
def precisaoEstrutural (r : Relatorio) : Option ℚ :=
  if 0 < r.total_artigos then
    some (1 - (r.artigos_vazios.length : ℚ) / (r.total_artigos : ℚ))
  else none

/-- The pipeline's quality gate: a ratio below the minimum is a fatal
regression (`sys.exit(2)`). -/
def regressaoFatal (r : Relatorio) : Bool :=
  match precisaoEstrutural r with
  | some p => decide (p < PRECISAO_MINIMA_ARTIGOS)
  | none => false

/-- The paragraph detail of a cross-reference match:
`m.group(2) or m.group(3)` with Python truthiness. -/
def paraNumM (m : MatchRes) : Option Str :=
  if optTruthy (m.grp 2) then m.grp 2 else m.grp 3

/-- The disambiguation rule actually implemented by the source's match
loop: keep a match iff its article group is non-empty and either the
verbal anchor precedes it or a paragraph/item detail was captured.
(The detected external-law reference plays no role in the decision.) -/
def mantemCrossref (texto : Str) (m : MatchRes) : Bool :=
  optTruthy (m.grp 1) &&
    (temContexto (contextoAntes texto m.start) ||
      (optTruthy (paraNumM m) || optTruthy (m.grp 4)))

/-- The record built for a kept match. -/
def emiteCrossref (texto origem : Str) (m : MatchRes) : CrossRef :=
  ⟨origem, (m.grp 1).getD [], paraNumM m, m.grp 4, m.grp 5,
    (reSearch patLeiOutra (contextoAntes texto m.start ++ pyStrip m.matched)).map
      (fun lm => (lm.grp 1).getD []),
    (pyStrip m.matched).take 120⟩

/-- A synthetic article for the validator fixture below: `i`-th id,
empty structure when `vazio`. -/
def artigoFixture (i : Nat) (vazio : Bool) : Artigo :=
  ⟨S "lei-t-art-" ++ S (toString i), i, S (toString i), 1, S "Art",
    if vazio then [] else [Bloco.caput (Conteudo.mk (S "texto") [] [] [])],
    []⟩

/-- The document of the spec's validator example: 10 articles, exactly
one of them with an empty `estrutura`. -/
def docDezArtigos : Documento :=
  ⟨S "t", [], (List.range 10).map (fun i => No.art (artigoFixture (i + 1) (i == 9)))⟩

/-- A default record used to name the head of a concrete extraction. -/
def crossrefPadrao : CrossRef := ⟨[], [], none, none, none, none, []⟩

/-- Whether a pattern contains no capture group (its matcher then
produces empty group lists; a lookahead also reports no groups in this
engine, which is faithful here since no source lookahead captures). -/
def semGrupos : RE → Bool
  | .eps => true
  | .tok _ => true
  | .seq a b => semGrupos a && semGrupos b
  | .alt a b => semGrupos a && semGrupos b
  | .starTok _ => true
  | .repTok _ _ _ => true
  | .opt a => semGrupos a
  | .group _ _ => false
  | .look _ => true
  | .atEnd => true

/-- The order-counter invariant threaded through the recursive parsers:
starting from counter value `n`, the produced article sequence carries
`ordem` values `n+1, …, m` and the counter ends at `m`. -/
def OrdSeq (n : Nat) (arts : List Artigo) (m : Nat) : Prop :=
  arts.map (fun a => a.ordem) = List.range' (n + 1) arts.length ∧
  m = n + arts.length

/-- Provenance: the article was produced by some iteration of the
`_parse_artigos` segment loop with this law code. -/
def Origem (lei : Str) (a : Artigo) : Prop :=
  ∃ txt k, parseArtigosSeg txt lei k = some a

/-- The combined invariant: order sequence plus provenance. -/
def SaidaOk (lei : Str) (n : Nat) (arts : List Artigo) (m : Nat) : Prop :=
  OrdSeq n arts m ∧ ∀ a ∈ arts, Origem lei a

mutual

/-- The C2 invariant, decided recursively over a content tree: `incisos`
and `alineas` are never both non-empty, here and in every nested item
content. -/
def conteudoOkB : Conteudo → Bool
  | .mk _ _ incs als => (incs.isEmpty || als.isEmpty) && incisosOkB incs

/-- The C2 invariant over an item list. -/
def incisosOkB : List (Str × Conteudo) → Bool
  | [] => true
  | p :: r => conteudoOkB p.2 && incisosOkB r

end

/-! ## Proof infrastructure

Lemmas about the embedded parser, shared by the claim theorems. -/

theorem iterarLista_append (a b : List No) :
    iterarLista (a ++ b) = iterarLista a ++ iterarLista b := by
  induction a with
  | nil => rfl
  | cons n r ih => simp [iterarLista, ih]

theorem iterarLista_map_art (as : List Artigo) :
    iterarLista (as.map No.art) = as := by
  induction as with
  | nil => rfl
  | cons a r ih => simp [iterarLista, iterarNo, ih]

theorem ordSeq_nil (n : Nat) : OrdSeq n [] n := ⟨rfl, rfl⟩

theorem ordSeq_append {n m k : Nat} {as bs : List Artigo}
    (h1 : OrdSeq n as m) (h2 : OrdSeq m bs k) :
    OrdSeq n (as ++ bs) k := by
  obtain ⟨e1, l1⟩ := h1
  obtain ⟨e2, l2⟩ := h2
  constructor
  · have := List.range'_append (n + 1) as.length bs.length 1
    simp only [one_mul] at this
    rw [List.map_append, e1, e2, List.length_append, l1]
    rw [Nat.add_comm as.length bs.length]
    rw [show n + 1 + as.length = n + as.length + 1 by omega] at this
    exact this
  · rw [l2, l1, List.length_append]
    omega

theorem ordSeq_cons {n m : Nat} {a : Artigo} {as : List Artigo}
    (h0 : a.ordem = n + 1) (h1 : OrdSeq (n + 1) as m) :
    OrdSeq n (a :: as) m := by
  obtain ⟨e1, l1⟩ := h1
  constructor
  · simp only [List.map_cons, e1, List.length_cons, h0]
    rw [List.range'_succ]
  · simp only [List.length_cons]
    omega

theorem saidaOk_nil (lei : Str) (n : Nat) : SaidaOk lei n [] n :=
  ⟨ordSeq_nil n, by intro a ha; cases ha⟩

theorem saidaOk_append {lei : Str} {n m k : Nat} {as bs : List Artigo}
    (h1 : SaidaOk lei n as m) (h2 : SaidaOk lei m bs k) :
    SaidaOk lei n (as ++ bs) k := by
  refine ⟨ordSeq_append h1.1 h2.1, ?_⟩
  intro a ha
  rcases List.mem_append.mp ha with h | h
  · exact h1.2 a h
  · exact h2.2 a h

/-- Everything `parseArtigosSeg` guarantees about a produced article. -/
theorem parseArtigosSeg_spec {txt lei : Str} {n : Nat} {a : Artigo}
    (h : parseArtigosSeg txt lei n = some a) :
    a.ordem = n + 1 ∧
    a.texto_bruto = pyStrip txt ∧
    a.estrutura = extrair_paragrafos (pyStrip txt) ∧
    a.confianca = round2 (max (1/10)
      (confiancaBruta (pyStrip txt) (extrair_paragrafos (pyStrip txt)))) ∧
    a.id = (if id_num a.numero ≠ [] then
        S "lei-" ++ lei ++ S "-art-" ++ id_num a.numero
      else S "lei-" ++ lei ++ S "-art-" ++ S (toString (n + 1))) := by
  simp only [parseArtigosSeg] at h
  split at h
  · exact absurd h (by simp)
  split at h
  · exact absurd h (by simp)
  split at h
  · exact absurd h (by simp)
  rename_i matched g heq
  split at h
  · exact absurd h (by simp)
  rw [Option.some_inj] at h
  subst h
  simp

theorem parseArtigosList_ok (segs : List Str) (lei : Str) (n : Nat) :
    SaidaOk lei n (parseArtigosList segs lei n).1
      (parseArtigosList segs lei n).2 := by
  induction segs generalizing n with
  | nil => exact saidaOk_nil lei n
  | cons s rest ih =>
    simp only [parseArtigosList]
    cases h : parseArtigosSeg s lei n with
    | none => exact ih n
    | some a =>
      have hspec := parseArtigosSeg_spec h
      have hrec := ih (n + 1)
      refine ⟨ordSeq_cons hspec.1 hrec.1, ?_⟩
      intro b hb
      rcases List.mem_cons.mp hb with hb | hb
      · exact hb ▸ ⟨s, n, h⟩
      · exact hrec.2 b hb

theorem parse_artigos_ok (bloco lei : Str) (n : Nat) :
    SaidaOk lei n (parse_artigos bloco lei n).1 (parse_artigos bloco lei n).2 :=
  parseArtigosList_ok _ _ _

theorem parseSubsecoesList_ok (segs : List Str) (lei : Str) (n : Nat) :
    SaidaOk lei n (iterarLista (parseSubsecoesList segs lei n).1)
      (parseSubsecoesList segs lei n).2 := by
  induction segs generalizing n with
  | nil => exact saidaOk_nil lei n
  | cons s rest ih =>
    simp only [parseSubsecoesList]
    cases h : reMatch patNumSubsecao (pyStrip s) with
    | some mg =>
      simp only [iterarLista, iterarNo, h]
      exact saidaOk_append (parse_artigos_ok _ _ _) (ih _)
    | none =>
      simp only [h, iterarLista_append, iterarLista_map_art]
      exact saidaOk_append (parse_artigos_ok _ _ _) (ih _)

theorem parse_subsecoes_ok (bloco lei : Str) (n : Nat) :
    SaidaOk lei n (iterarLista (parse_subsecoes bloco lei n).1)
      (parse_subsecoes bloco lei n).2 :=
  parseSubsecoesList_ok _ _ _

theorem parseSecoesList_ok (segs : List Str) (lei : Str) (n : Nat) :
    SaidaOk lei n (iterarLista (parseSecoesList segs lei n).1)
      (parseSecoesList segs lei n).2 := by
  induction segs generalizing n with
  | nil => exact saidaOk_nil lei n
  | cons s rest ih =>
    simp only [parseSecoesList]
    cases h : reMatch patNumSecao (pyStrip s) with
    | some mg =>
      simp only [iterarLista, iterarNo, h]
      exact saidaOk_append (parse_subsecoes_ok _ _ _) (ih _)
    | none =>
      simp only [h, iterarLista_append]
      exact saidaOk_append (parse_subsecoes_ok _ _ _) (ih _)

theorem parse_secoes_ok (bloco lei : Str) (n : Nat) :
    SaidaOk lei n (iterarLista (parse_secoes bloco lei n).1)
      (parse_secoes bloco lei n).2 :=
  parseSecoesList_ok _ _ _

theorem parseCapitulosList_ok (segs : List Str) (lei : Str) (n : Nat) :
    SaidaOk lei n (iterarLista (parseCapitulosList segs lei n).1)
      (parseCapitulosList segs lei n).2 := by
  induction segs generalizing n with
  | nil => exact saidaOk_nil lei n
  | cons s rest ih =>
    simp only [parseCapitulosList]
    cases h : reMatch patNumCapitulo (pyStrip s) with
    | some mg =>
      simp only [iterarLista, iterarNo, h]
      exact saidaOk_append (parse_secoes_ok _ _ _) (ih _)
    | none =>
      simp only [h, iterarLista_append]
      exact saidaOk_append (parse_secoes_ok _ _ _) (ih _)

theorem parse_capitulos_ok (bloco lei : Str) (n : Nat) :
    SaidaOk lei n (iterarLista (parse_capitulos bloco lei n).1)
      (parse_capitulos bloco lei n).2 :=
  parseCapitulosList_ok _ _ _

theorem parseTitulosList_ok (segs : List Str) (lei : Str) (n : Nat) :
    SaidaOk lei n (iterarLista (parseTitulosList segs lei n).1)
      (parseTitulosList segs lei n).2 := by
  induction segs generalizing n with
  | nil => exact saidaOk_nil lei n
  | cons s rest ih =>
    simp only [parseTitulosList]
    cases h : reMatch patNumTitulo (pyStrip s) with
    | some mg =>
      simp only [iterarLista, iterarNo, h]
      exact saidaOk_append (parse_capitulos_ok _ _ _) (ih _)
    | none =>
      simp only [h, iterarLista_append]
      exact saidaOk_append (parse_capitulos_ok _ _ _) (ih _)

theorem parse_titulos_ok (bloco lei : Str) (n : Nat) :
    SaidaOk lei n (iterarLista (parse_titulos bloco lei n).1)
      (parse_titulos bloco lei n).2 :=
  parseTitulosList_ok _ _ _

theorem parseLivrosList_ok (segs : List Str) (lei : Str) (n : Nat) :
    SaidaOk lei n (iterarLista (parseLivrosList segs lei n).1)
      (parseLivrosList segs lei n).2 := by
  induction segs generalizing n with
  | nil => exact saidaOk_nil lei n
  | cons s rest ih =>
    simp only [parseLivrosList]
    cases h : reMatch patNumLivro (pyStrip s) with
    | some mg =>
      simp only [h]
      split
      · simp only [iterarLista_append]
        exact saidaOk_append (parse_titulos_ok _ _ _) (ih _)
      · simp only [iterarLista, iterarNo]
        exact saidaOk_append (parse_titulos_ok _ _ _) (ih _)
    | none =>
      simp only [h, iterarLista_append]
      exact saidaOk_append (parse_titulos_ok _ _ _) (ih _)

theorem parse_livros_ok (bloco lei : Str) (n : Nat) :
    SaidaOk lei n (iterarLista (parse_livros bloco lei n).1)
      (parse_livros bloco lei n).2 :=
  parseLivrosList_ok _ _ _

theorem parsePartesList_ok (segs : List Str) (lei : Str) (n : Nat) :
    SaidaOk lei n (iterarLista (parsePartesList segs lei n).1)
      (parsePartesList segs lei n).2 := by
  induction segs generalizing n with
  | nil => exact saidaOk_nil lei n
  | cons s rest ih =>
    simp only [parsePartesList]
    cases h : reMatch patNumParte (pyStrip s) with
    | some mg =>
      simp only [iterarLista, iterarNo, h]
      by_cases hl : (reSearch patSplitLivro (pyStrip s)).isSome
      · simp only [hl, if_true]
        exact saidaOk_append (parse_livros_ok _ _ _) (ih _)
      · simp only [hl, if_false]
        exact saidaOk_append (parse_titulos_ok _ _ _) (ih _)
    | none =>
      simp only [h, iterarLista_append]
      by_cases hl : (reSearch patSplitLivro (pyStrip s)).isSome
      · simp only [hl, if_true]
        exact saidaOk_append (parse_livros_ok _ _ _) (ih _)
      · simp only [hl, if_false]
        exact saidaOk_append (parse_titulos_ok _ _ _) (ih _)

theorem parse_partes_ok (bloco lei : Str) (n : Nat) :
    SaidaOk lei n (iterarLista (parse_partes bloco lei n).1)
      (parse_partes bloco lei n).2 :=
  parsePartesList_ok _ _ _

theorem capituloRaizList_ok (segs : List Str) (lei : Str) (n : Nat) :
    SaidaOk lei n (iterarLista (capituloRaizList segs lei n).1)
      (capituloRaizList segs lei n).2 := by
  induction segs generalizing n with
  | nil => exact saidaOk_nil lei n
  | cons s rest ih =>
    simp only [capituloRaizList]
    cases h : reMatch patNumCapitulo (pyStrip s) with
    | some mg =>
      simp only [iterarLista, iterarNo, h]
      exact saidaOk_append (parse_secoes_ok _ _ _) (ih _)
    | none => exact ih n

/-- The combined invariant holds of every parsed document, from counter
value 0: DFS-preorder orders are `1..N` and every article originates in
`parseArtigosSeg` with the document's law code. -/
theorem parse_lei_ok (texto codigo : Str) :
    ∃ m, SaidaOk codigo 0 (iterar_artigos (parse_lei texto codigo)) m := by
  unfold parse_lei iterar_artigos
  dsimp only
  split
  · exact ⟨_, parse_partes_ok _ _ _⟩
  split
  · exact ⟨_, parse_livros_ok _ _ _⟩
  split
  · exact ⟨_, parse_titulos_ok _ _ _⟩
  split
  · exact ⟨_, capituloRaizList_ok _ _ _⟩
  · rw [iterarLista_map_art]
    exact ⟨_, parse_artigos_ok _ _ _⟩

theorem extrair_alineas_ok (t : Str) : conteudoOkB (extrair_alineas t) = true := by
  unfold extrair_alineas
  dsimp only
  split <;> simp [conteudoOkB, incisosOkB]

theorem incisosPares_ok : ∀ l : List Str, incisosOkB (incisosPares l) = true
  | [] => rfl
  | [num] => by
    simp [incisosPares, incisosOkB, extrair_alineas_ok]
  | num :: corp :: rest => by
    simp [incisosPares, incisosOkB, extrair_alineas_ok, incisosPares_ok rest]

theorem extrair_incisos_ok (t : Str) : conteudoOkB (extrair_incisos t) = true := by
  unfold extrair_incisos
  dsimp only
  split
  · exact extrair_alineas_ok t
  · simp [conteudoOkB, incisosPares_ok]

theorem paragrafosPares_ok : ∀ l : List Str,
    (paragrafosPares l).all (fun b => conteudoOkB b.conteudo) = true
  | [] => rfl
  | [marcador] => by
    simp [paragrafosPares, Bloco.conteudo, extrair_incisos_ok]
  | marcador :: corp :: rest => by
    have ih := paragrafosPares_ok rest
    simp only [paragrafosPares, List.all_cons, Bool.and_eq_true]
    exact ⟨by simp [Bloco.conteudo, extrair_incisos_ok], ih⟩

theorem extrair_paragrafos_ok (t : Str) :
    (extrair_paragrafos t).all (fun b => conteudoOkB b.conteudo) = true := by
  unfold extrair_paragrafos
  dsimp only
  rw [List.all_append]
  rw [paragrafosPares_ok]
  split <;> simp [Bloco.conteudo, extrair_incisos_ok]

/-- Bounds of the clamped, rounded confidence (finitely many penalty
combinations, each checked numerically). -/
theorem confianca_limites (txt : Str) (est : List Bloco) :
    1/10 ≤ round2 (max (1/10) (confiancaBruta txt est)) ∧
    round2 (max (1/10) (confiancaBruta txt est)) ≤ 1 := by
  unfold confiancaBruta
  dsimp only
  repeat' split
  all_goals norm_num [round2, round_eq]

theorem crossrefStep_eq (texto origem : Str) (m : MatchRes) :
    crossrefStep texto origem m =
      if mantemCrossref texto m then some (emiteCrossref texto origem m)
      else none := by
  unfold crossrefStep mantemCrossref emiteCrossref paraNumM
  dsimp only
  cases h1 : optTruthy (m.grp 1)
  · simp [h1]
  · cases h2 : temContexto (contextoAntes texto m.start) <;>
      cases h3 : optTruthy (if optTruthy (m.grp 2) then m.grp 2 else m.grp 3) <;>
        cases h4 : optTruthy (m.grp 4) <;>
          simp [h1, h2, h3, h4]

theorem filterMap_if {α β : Type} (f : α → Option β) (p : α → Bool)
    (g : α → β) (hf : ∀ x, f x = if p x then some (g x) else none)
    (l : List α) : l.filterMap f = (l.filter p).map g := by
  induction l with
  | nil => rfl
  | cons x r ih =>
    rw [List.filterMap_cons, List.filter_cons, hf]
    cases hp : p x <;> simp [ih]

/-- What the match loop of `extrair_crossrefs` computes: the matches
kept by the implemented disambiguation rule, each emitted as its
record. -/
theorem extrair_crossrefs_caracterizacao (texto origem codigo : Str) :
    extrair_crossrefs texto origem codigo =
      ((reFinditer patCrossref texto).filter (mantemCrossref texto)).map
        (emiteCrossref texto origem) := by
  unfold extrair_crossrefs
  exact filterMap_if _ _ _ (crossrefStep_eq texto origem) _

theorem dropsDesc_len (p : Char → Bool) :
    ∀ l : Str, ∀ x ∈ dropsDesc p l, x.length ≤ l.length := by
  intro l
  induction l with
  | nil =>
    intro x hx
    simp only [dropsDesc, List.mem_singleton] at hx
    simp [hx]
  | cons c r ih =>
    intro x hx
    simp only [dropsDesc] at hx
    split at hx
    · rcases List.mem_append.mp hx with h | h
      · exact le_trans (ih x h) (by simp)
      · simp only [List.mem_singleton] at h
        simp [h]
    · simp only [List.mem_singleton] at hx
      simp [hx]

theorem repResidues_len (p : Char → Bool) (lo hi : Nat) (l : Str) :
    ∀ x ∈ repResidues p lo hi l, x.length ≤ l.length := by
  intro x hx
  simp only [repResidues, List.mem_map] at hx
  obtain ⟨i, _, rfl⟩ := hx
  simp [List.length_drop]

/-- The matcher only ever consumes from the front: every residue is at
most as long as the input. -/
theorem M_len_le : ∀ (r : RE) (l : Str), ∀ q ∈ M r l, q.1.length ≤ l.length := by
  intro r
  induction r with
  | eps =>
    intro l q h
    simp only [M, List.mem_singleton] at h
    simp [h]
  | tok p =>
    intro l q h
    cases l with
    | nil => simp [M] at h
    | cons c r =>
      simp only [M] at h
      split at h
      · simp only [List.mem_singleton] at h
        simp [h]
      · simp at h
  | seq a b iha ihb =>
    intro l q h
    simp only [M, List.mem_flatMap, List.mem_map] at h
    obtain ⟨x, hx, y, hy, rfl⟩ := h
    exact le_trans (ihb x.1 y hy) (iha l x hx)
  | alt a b iha ihb =>
    intro l q h
    rcases List.mem_append.mp h with h | h
    · exact iha l q h
    · exact ihb l q h
  | starTok p =>
    intro l q h
    simp only [M, List.mem_map] at h
    obtain ⟨x, hx, rfl⟩ := h
    exact dropsDesc_len p l x hx
  | repTok p lo hi =>
    intro l q h
    simp only [M, List.mem_map] at h
    obtain ⟨x, hx, rfl⟩ := h
    exact repResidues_len p lo hi l x hx
  | opt a iha =>
    intro l q h
    rcases List.mem_append.mp h with h | h
    · exact iha l q h
    · simp only [List.mem_singleton] at h
      simp [h]
  | group n a iha =>
    intro l q h
    simp only [M, List.mem_map] at h
    obtain ⟨x, hx, rfl⟩ := h
    exact iha l x hx
  | look a iha =>
    intro l q h
    simp only [M] at h
    split at h
    · simp at h
    · simp only [List.mem_singleton] at h
      simp [h]
  | atEnd =>
    intro l q h
    cases l with
    | nil =>
      simp only [M, List.mem_singleton] at h
      simp [h]
    | cons c r => simp [M] at h

/-- A group-free pattern reports no captures. -/
theorem M_semGrupos : ∀ (r : RE), semGrupos r = true →
    ∀ (l : Str), ∀ q ∈ M r l, q.2 = [] := by
  intro r
  induction r with
  | eps =>
    intro _ l q h
    simp only [M, List.mem_singleton] at h
    simp [h]
  | tok p =>
    intro _ l q h
    cases l with
    | nil => simp [M] at h
    | cons c r =>
      simp only [M] at h
      split at h
      · simp only [List.mem_singleton] at h
        simp [h]
      · simp at h
  | seq a b iha ihb =>
    intro hg l q h
    simp only [semGrupos, Bool.and_eq_true] at hg
    simp only [M, List.mem_flatMap, List.mem_map] at h
    obtain ⟨x, hx, y, hy, rfl⟩ := h
    simp [iha hg.1 l x hx, ihb hg.2 x.1 y hy]
  | alt a b iha ihb =>
    intro hg l q h
    simp only [semGrupos, Bool.and_eq_true] at hg
    rcases List.mem_append.mp h with h | h
    · exact iha hg.1 l q h
    · exact ihb hg.2 l q h
  | starTok p =>
    intro _ l q h
    simp only [M, List.mem_map] at h
    obtain ⟨x, _, rfl⟩ := h
    rfl
  | repTok p lo hi =>
    intro _ l q h
    simp only [M, List.mem_map] at h
    obtain ⟨x, _, rfl⟩ := h
    rfl
  | opt a iha =>
    intro hg l q h
    rcases List.mem_append.mp h with h | h
    · exact iha hg l q h
    · simp only [List.mem_singleton] at h
      simp [h]
  | group n a iha =>
    intro hg
    simp [semGrupos] at hg
  | look a iha =>
    intro _ l q h
    simp only [M] at h
    split at h
    · simp at h
    · simp only [List.mem_singleton] at h
      simp [h]
  | atEnd =>
    intro _ l q h
    cases l with
    | nil =>
      simp only [M, List.mem_singleton] at h
      simp [h]
    | cons c r => simp [M] at h

theorem M_tok_lt (p : Char → Bool) :
    ∀ l : Str, ∀ q ∈ M (.tok p) l, q.1.length < l.length := by
  intro l q h
  cases l with
  | nil => simp [M] at h
  | cons c r =>
    simp only [M] at h
    split at h
    · simp only [List.mem_singleton] at h
      simp [h]
    · simp at h

theorem M_seq_lt_left {a b : RE}
    (ha : ∀ l : Str, ∀ q ∈ M a l, q.1.length < l.length) :
    ∀ l : Str, ∀ q ∈ M (.seq a b) l, q.1.length < l.length := by
  intro l q h
  simp only [M, List.mem_flatMap, List.mem_map] at h
  obtain ⟨x, hx, y, hy, rfl⟩ := h
  exact lt_of_le_of_lt (M_len_le b x.1 y hy) (ha l x hx)

theorem M_seq_split {a b : RE} {l : Str} {q : Str × Groups}
    (h : q ∈ M (.seq a b) l) :
    ∃ x y, x ∈ M a l ∧ y ∈ M b x.1 ∧ q.1 = y.1 ∧ q.2 = x.2 ++ y.2 := by
  simp only [M, List.mem_flatMap, List.mem_map] at h
  obtain ⟨x, hx, y, hy, rfl⟩ := h
  exact ⟨x, y, hx, hy, rfl, rfl⟩

/-- A capture of a group-free, strictly-consuming body is exactly one
non-empty binding. -/
theorem M_group_spec {n : Nat} {body : RE} (hb : semGrupos body = true)
    (hlt : ∀ l : Str, ∀ q ∈ M body l, q.1.length < l.length) :
    ∀ l : Str, ∀ q ∈ M (.group n body) l,
      ∃ cap, q.2 = [(n, cap)] ∧ cap ≠ [] := by
  intro l q h
  simp only [M, List.mem_map] at h
  obtain ⟨x, hx, rfl⟩ := h
  refine ⟨l.take (l.length - x.1.length), ?_, ?_⟩
  · simp [M_semGrupos body hb l x hx]
  · have h1 := hlt l x hx
    have h2 : (l.take (l.length - x.1.length)).length =
        l.length - x.1.length := by
      rw [List.length_take]
      omega
    intro hemp
    rw [hemp] at h2
    simp at h2
    omega

theorem M_plusTok_lt (p : Char → Bool) :
    ∀ l : Str, ∀ q ∈ M (plusTok p) l, q.1.length < l.length := by
  intro l q h
  exact M_seq_lt_left (M_tok_lt p) l q h

/-- The article-number group of `_RE_ART_NUM` always captures a
non-empty token (it begins with a mandatory digit). -/
theorem patArtNum_capture (txt mt : Str) (g : Groups)
    (h : reMatch patArtNum txt = some (mt, g)) :
    ∃ v, g.lookup 1 = some v ∧ v ≠ [] := by
  unfold reMatch at h
  cases hM : M patArtNum txt with
  | nil =>
    rw [hM] at h
    cases h
  | cons q rest =>
    rw [hM] at h
    simp only [List.head?] at h
    have hq : q ∈ M patArtNum txt := by
      rw [hM]
      exact List.mem_cons_self q rest
    have hg : g = q.2 := by
      cases h
      rfl
    unfold patArtNum at hq
    simp only [reCat] at hq
    obtain ⟨x1, y1, hx1, hy1, _, e1⟩ := M_seq_split hq
    obtain ⟨x2, y2, hx2, hy2, _, e2⟩ := M_seq_split hy1
    obtain ⟨x3, y3, hx3, hy3, _, e3⟩ := M_seq_split hy2
    obtain ⟨cap, hcap, hne⟩ := M_group_spec (n := 1) (by rfl)
      (M_seq_lt_left (M_plusTok_lt isDigitB)) x3.1 y3 hy3
    have z1 : x1.2 = [] := M_semGrupos _ (by rfl) _ x1 hx1
    have z2 : x2.2 = [] := M_semGrupos _ (by rfl) _ x2 hx2
    have z3 : x3.2 = [] := M_semGrupos _ (by rfl) _ x3 hx3
    refine ⟨cap, ?_, hne⟩
    rw [hg, e1, e2, e3, z1, z2, z3, hcap]
    rfl

/-- Same shape for the digit group of `_id_num`'s pattern. -/
theorem hitAt_patIdNum_grp (l : Str) (m : MatchRes)
    (h : hitAt patIdNum l = some m) :
    ∃ v, m.grp 1 = some v ∧ v ≠ [] := by
  unfold hitAt at h
  cases hM : M patIdNum l with
  | nil =>
    rw [hM] at h
    cases h
  | cons q rest =>
    rw [hM] at h
    simp only [List.head?] at h
    have hq : q ∈ M patIdNum l := by
      rw [hM]
      exact List.mem_cons_self q rest
    have hg : m.groups = q.2 := by
      cases h
      rfl
    unfold patIdNum at hq
    simp only [reCat] at hq
    obtain ⟨x1, y1, hx1, hy1, _, e1⟩ := M_seq_split hq
    obtain ⟨cap, hcap, hne⟩ := M_group_spec (n := 1) (by rfl)
      (M_tok_lt (fun c => '0' ≤ c && c ≤ '9')) l x1 hx1
    have z1 : y1.2 = [] := M_semGrupos _ (by rfl) _ y1 hy1
    refine ⟨cap, ?_, hne⟩
    unfold MatchRes.grp
    rw [hg, e1, z1, hcap]
    rfl

theorem searchLocal_patIdNum_grp :
    ∀ (l : Str) (m : MatchRes), searchLocal patIdNum l = some m →
      ∃ v, m.grp 1 = some v ∧ v ≠ [] := by
  intro l
  induction l with
  | nil =>
    intro m h
    exact hitAt_patIdNum_grp [] m h
  | cons c r ih =>
    intro m h
    simp only [searchLocal] at h
    cases hh : hitAt patIdNum (c :: r) with
    | some m0 =>
      rw [hh] at h
      cases h
      exact hitAt_patIdNum_grp _ _ hh
    | none =>
      rw [hh] at h
      simp only [Option.map_eq_some'] at h
      obtain ⟨m1, hm1, rfl⟩ := h
      obtain ⟨v, hv, hne⟩ := ih m1 hm1
      exact ⟨v, hv, hne⟩

theorem reSubAux_patIdNum_ne :
    ∀ (fuel : Nat) (l : Str), l ≠ [] →
      reSubAux patIdNum (fun m => (m.grp 1).getD []) fuel l ≠ [] := by
  intro fuel
  induction fuel with
  | zero =>
    intro l hl
    simpa [reSubAux] using hl
  | succ f ih =>
    intro l hl
    simp only [reSubAux]
    cases hs : searchLocal patIdNum l with
    | none => exact hl
    | some m =>
      obtain ⟨v, hv, hvne⟩ := searchLocal_patIdNum_grp l m hs
      dsimp only
      split
      · intro hemp
        simp only [List.append_eq_nil] at hemp
        cases l with
        | nil => exact hl rfl
        | cons c r => simp [List.take_succ_cons] at hemp
      · intro hemp
        simp only [List.append_eq_nil, hv, Option.getD_some] at hemp
        exact hvne hemp.1.2

/-- Source `_id_num` never empties a non-empty number token. -/
theorem id_num_ne_nil (v : Str) (hv : v ≠ []) : id_num v ≠ [] := by
  unfold id_num
  rw [if_neg hv]
  exact reSubAux_patIdNum_ne _ v hv

/-- A produced article's raw and normalized number tokens are
non-empty. -/
theorem parseArtigosSeg_numero {txt lei : Str} {n : Nat} {a : Artigo}
    (h : parseArtigosSeg txt lei n = some a) : id_num a.numero ≠ [] := by
  simp only [parseArtigosSeg] at h
  split at h
  · exact absurd h (by simp)
  split at h
  · exact absurd h (by simp)
  split at h
  · exact absurd h (by simp)
  rename_i matched g heq
  split at h
  · exact absurd h (by simp)
  rw [Option.some_inj] at h
  obtain ⟨v, hv, hne⟩ := patArtNum_capture _ matched g heq
  have hnum : a.numero = v := by
    rw [← h]
    simp [hv]
  rw [hnum]
  exact id_num_ne_nil v hne

/-! ## Claim theorems -/

/-- Claim C1: for every input text and law code, the articles of the
document returned by `parse_lei`, taken in DFS preorder document order
(`iterar_artigos`), carry `ordem` values exactly `1..N`: strictly
increasing, no gaps, no duplicates, starting at 1. -/
theorem C1_ordem_preordem (texto codigo : Str) :
    (iterar_artigos (parse_lei texto codigo)).map (fun a => a.ordem) =
      List.range' 1 (iterar_artigos (parse_lei texto codigo)).length := by
  obtain ⟨m, hord, _⟩ := parse_lei_ok texto codigo
  exact hord.1

/-- Claim C2: in every Content instance anywhere in a parsed document
(each block's content and, recursively, each item's nested content),
`incisos` and `alineas` are never both non-empty. -/
theorem C2_incisos_alineas_exclusivos (texto codigo : Str) :
    (iterar_artigos (parse_lei texto codigo)).all
      (fun a => a.estrutura.all (fun b => conteudoOkB b.conteudo)) = true := by
  obtain ⟨m, _, hprov⟩ := parse_lei_ok texto codigo
  rw [List.all_eq_true]
  intro a ha
  obtain ⟨txt, k, hseg⟩ := hprov a ha
  rw [(parseArtigosSeg_spec hseg).2.2.1]
  exact extrair_paragrafos_ok _

/-- Claim C3: every article's confidence equals 1.0 minus exactly the
fixed penalties that apply (−0.3 no-keyword, −0.5 short segment, −0.2
internal-reference tag, −0.4 no caput text), clamped at 0.1 and rounded
to two decimals; consequently it lies in [0.1, 1.0]. -/
theorem C3_confianca_formula_limites (texto codigo : Str) :
    (iterar_artigos (parse_lei texto codigo)).all (fun a => decide
      (a.confianca =
          round2 (max (1/10) (confiancaBruta a.texto_bruto a.estrutura)) ∧
        1/10 ≤ a.confianca ∧ a.confianca ≤ 1)) = true := by
  obtain ⟨m, _, hprov⟩ := parse_lei_ok texto codigo
  rw [List.all_eq_true]
  intro a ha
  rw [decide_eq_true_eq]
  obtain ⟨txt, k, hseg⟩ := hprov a ha
  have hsp := parseArtigosSeg_spec hseg
  have e := hsp.2.2.2.1
  refine ⟨?_, ?_, ?_⟩
  · rw [hsp.2.1, hsp.2.2.1]
    exact e
  · rw [e]
    exact (confianca_limites _ _).1
  · rw [e]
    exact (confianca_limites _ _).2

/-- Claim C4 (counterexample): two articles sharing the number token
`1º` receive the same id, so ids are not pairwise distinct. -/
theorem C4_contraexemplo :
    (iterar_artigos (parse_lei
        (S "Art. 1º Primeiro texto bom.\nArt. 1º Segundo texto bom.")
        (S "0000"))).map (fun a => a.id) =
      [S "lei-0000-art-1", S "lei-0000-art-1"] ∧
    ¬ ((iterar_artigos (parse_lei
        (S "Art. 1º Primeiro texto bom.\nArt. 1º Segundo texto bom.")
        (S "0000"))).map (fun a => a.id)).Nodup := by
  decide

/-- Claim C4 (amended): each id is derived from the law code and the
normalized number token alone, so article ids are pairwise distinct
exactly when the normalized number tokens are; two articles sharing a
number token share an id, which the validator reports in
`ids_duplicados`. -/
theorem C4_ids_unicos (t c : Str)
    (h2 : ((iterar_artigos (parse_lei t c)).map
      (fun a => id_num a.numero)).Nodup) :
    ((iterar_artigos (parse_lei t c)).map (fun a => a.id)).Nodup := by
  obtain ⟨m, _, hprov⟩ := parse_lei_ok t c
  have hmap : (iterar_artigos (parse_lei t c)).map (fun a => a.id) =
      ((iterar_artigos (parse_lei t c)).map (fun a => id_num a.numero)).map
        (fun x => S "lei-" ++ c ++ S "-art-" ++ x) := by
    rw [List.map_map]
    apply List.map_congr_left
    intro a ha
    obtain ⟨txt, k, hseg⟩ := hprov a ha
    have hid := (parseArtigosSeg_spec hseg).2.2.2.2
    have hne : id_num a.numero ≠ [] := parseArtigosSeg_numero hseg
    simp only [Function.comp]
    rw [hid, if_pos hne]
  rw [hmap]
  refine List.Nodup.map ?_ h2
  intro x y hxy
  exact List.append_cancel_left hxy

/-- Claim C4 (witness): a document whose two articles carry distinct
number tokens, with the amended uniqueness conclusion. -/
theorem C4_testemunha :
    ((iterar_artigos (parse_lei
        (S "Art. 1º Texto bom primeiro.\nArt. 2º Texto bom segundo.")
        (S "t"))).map (fun a => id_num a.numero)).Nodup ∧
    ((iterar_artigos (parse_lei
        (S "Art. 1º Texto bom primeiro.\nArt. 2º Texto bom segundo.")
        (S "t"))).map (fun a => a.id)).Nodup :=
  ⟨by decide, C4_ids_unicos _ _ (by decide)⟩

/-- Claim C5: `parse_lei` is total (it is a function in this embedding;
the returned document always carries the law code), and when no
hierarchy marker is detected the root sequence is exactly the flat list
of articles parsed from the normalized text. -/
theorem C5_total_raiz_artigo (t c : Str) :
    (parse_lei t c).codigo = c ∧
    (detectar_raiz (normalizar_texto t) = S "artigo" →
      (parse_lei t c).titulos =
        ((parse_artigos (normalizar_texto t) c 0).1).map No.art) := by
  constructor
  · rfl
  · intro h
    unfold parse_lei
    dsimp only
    rw [h]
    rw [if_neg (by decide : ¬(S "artigo" = S "parte"))]
    rw [if_neg (by decide : ¬(S "artigo" = S "livro"))]
    rw [if_neg (by decide : ¬(S "artigo" = S "titulo"))]
    rw [if_neg (by decide : ¬(S "artigo" = S "capitulo"))]

/-- Claim C5 (witness): a marker-free text parses to the flat article
list. -/
theorem C5_testemunha :
    detectar_raiz (normalizar_texto (S "Art. 1º Texto da lei bom.")) =
      S "artigo" ∧
    (parse_lei (S "Art. 1º Texto da lei bom.") (S "1")).titulos =
      ((parse_artigos (normalizar_texto (S "Art. 1º Texto da lei bom."))
        (S "1") 0).1).map No.art :=
  ⟨by decide, (C5_total_raiz_artigo (S "Art. 1º Texto da lei bom.")
    (S "1")).2 (by decide)⟩

/-- Claim C6 (counterexample): at this text the single regex match has
a detected external-law reference but no verbal anchor and no
paragraph/item detail, and it is discarded — the extractor emits
nothing, contrary to the claim's case (c). -/
theorem C6_contraexemplo :
    ((reFinditer patCrossref (S "da Lei nº 9.394, art. 10 se aplica")).map
      (fun m => (reSearch patLeiOutra
        (contextoAntes (S "da Lei nº 9.394, art. 10 se aplica") m.start ++
          pyStrip m.matched)).map (fun lm => (lm.grp 1).getD []))) =
      [some (S "9.394")] ∧
    extrair_crossrefs (S "da Lei nº 9.394, art. 10 se aplica")
      (S "lei-1-art-1") (S "1") = [] := by
  decide

/-- Claim C6 (amended): a matched article reference is kept if and only
if (a) a verbal anchor phrase immediately precedes it or (b) a
paragraph or item detail was captured; a detected external-law
reference alone does not make the match survive. -/
theorem C6_regra_filtro (texto origem codigo : Str) :
    extrair_crossrefs texto origem codigo =
      ((reFinditer patCrossref texto).filter (mantemCrossref texto)).map
        (emiteCrossref texto origem) :=
  extrair_crossrefs_caracterizacao texto origem codigo

/-- Claim C7 (counterexample): the emitted record has no `id_resolvido`
key (its keys are the seven of `crossrefCampos`), even at an input
where a record is emitted. -/
theorem C7_contraexemplo :
    (S "id_resolvido") ∉ crossrefCampos ∧
    (extrair_crossrefs (S "nos termos do art. 5º desta Lei")
      (S "lei-9394-art-3") (S "9394")).length = 1 := by
  decide

/-- Claim C7 (amended): every emitted cross-reference record carries
exactly the seven fields `origem, destino_art, destino_para,
destino_inc, destino_alinea, lei_externa, trecho` (no `id_resolvido`,
no catalog resolution in the extractor), and `trecho` is capped at 120
characters. -/
theorem C7_campos_e_trecho :
    crossrefCampos = [S "origem", S "destino_art", S "destino_para",
      S "destino_inc", S "destino_alinea", S "lei_externa", S "trecho"] ∧
    ∀ texto origem codigo r, r ∈ extrair_crossrefs texto origem codigo →
      r.trecho.length ≤ 120 := by
  refine ⟨rfl, ?_⟩
  intro texto origem codigo r hr
  rw [extrair_crossrefs_caracterizacao] at hr
  obtain ⟨mm, _, he⟩ := List.mem_map.mp hr
  rw [← he]
  simp only [emiteCrossref]
  exact List.length_take_le 120 (pyStrip mm.matched)

/-- Claim C7 (witness): the record emitted for a concrete anchored
reference respects the snippet cap. -/
theorem C7_testemunha :
    ((extrair_crossrefs (S "nos termos do art. 5º desta Lei") (S "o")
      (S "c")).headD crossrefPadrao) ∈
      extrair_crossrefs (S "nos termos do art. 5º desta Lei") (S "o")
        (S "c") ∧
    ((extrair_crossrefs (S "nos termos do art. 5º desta Lei") (S "o")
      (S "c")).headD crossrefPadrao).trecho.length ≤ 120 :=
  ⟨by decide, C7_campos_e_trecho.2 (S "nos termos do art. 5º desta Lei")
    (S "o") (S "c")
    ((extrair_crossrefs (S "nos termos do art. 5º desta Lei") (S "o")
      (S "c")).headD crossrefPadrao) (by decide)⟩

/-- Claim C8 (counterexample): with the chapter level as detected root,
the article occurring before the first chapter marker (still present in
the normalized text) does not appear in the returned document. -/
theorem C8_contraexemplo :
    detectar_raiz (normalizar_texto
      (S "Art. 1º Texto inicial bom.\nCAPÍTULO I\nDO ENSINO\nArt. 2º Texto segundo bom.")) =
      S "capitulo" ∧
    containsStr (S "Art. 1º") (normalizar_texto
      (S "Art. 1º Texto inicial bom.\nCAPÍTULO I\nDO ENSINO\nArt. 2º Texto segundo bom.")) =
      true ∧
    (iterar_artigos (parse_lei
      (S "Art. 1º Texto inicial bom.\nCAPÍTULO I\nDO ENSINO\nArt. 2º Texto segundo bom.")
      (S "t"))).map (fun a => a.numero) = [S "2º"] := by
  decide

/-- Claim C8 (amended): at the part, book, title, section and
subsection levels, every segment—matching its marker or not—contributes
the articles of its next-lower-level parse (non-matching segments are
flattened, never dropped); but at the chapter level used as parse root,
a segment that does not match the chapter marker is dropped (and so is
everything before the first chapter marker, by the `[1:]` slice). -/
theorem C8_achatamento :
    (∀ s rest lei n, iterarLista (parseTitulosList (s :: rest) lei n).1 =
        iterarLista (parse_capitulos (pyStrip s) lei n).1 ++
        iterarLista (parseTitulosList rest lei
          (parse_capitulos (pyStrip s) lei n).2).1) ∧
    (∀ s rest lei n, iterarLista (parseLivrosList (s :: rest) lei n).1 =
        iterarLista (parse_titulos (pyStrip s) lei n).1 ++
        iterarLista (parseLivrosList rest lei
          (parse_titulos (pyStrip s) lei n).2).1) ∧
    (∀ s rest lei n, iterarLista (parsePartesList (s :: rest) lei n).1 =
        iterarLista (if (reSearch patSplitLivro (pyStrip s)).isSome then
            parse_livros (pyStrip s) lei n
          else parse_titulos (pyStrip s) lei n).1 ++
        iterarLista (parsePartesList rest lei
          (if (reSearch patSplitLivro (pyStrip s)).isSome then
            parse_livros (pyStrip s) lei n
          else parse_titulos (pyStrip s) lei n).2).1) ∧
    (∀ s rest lei n, iterarLista (parseSecoesList (s :: rest) lei n).1 =
        iterarLista (parse_subsecoes (pyStrip s) lei n).1 ++
        iterarLista (parseSecoesList rest lei
          (parse_subsecoes (pyStrip s) lei n).2).1) ∧
    (∀ s rest lei n, iterarLista (parseSubsecoesList (s :: rest) lei n).1 =
        (parse_artigos (pyStrip s) lei n).1 ++
        iterarLista (parseSubsecoesList rest lei
          (parse_artigos (pyStrip s) lei n).2).1) ∧
    (∀ s rest lei n, reMatch patNumCapitulo (pyStrip s) = none →
        capituloRaizList (s :: rest) lei n = capituloRaizList rest lei n) := by
  refine ⟨?_, ?_, ?_, ?_, ?_, ?_⟩
  · intro s rest lei n
    simp only [parseTitulosList]
    cases h : reMatch patNumTitulo (pyStrip s) <;>
      simp [h, iterarLista, iterarNo, iterarLista_append]
  · intro s rest lei n
    simp only [parseLivrosList]
    cases h : reMatch patNumLivro (pyStrip s)
    · simp [h, iterarLista_append]
    · simp only [h]
      split <;> simp [iterarLista, iterarNo, iterarLista_append]
  · intro s rest lei n
    simp only [parsePartesList]
    cases h : reMatch patNumParte (pyStrip s) <;>
      cases hl : (reSearch patSplitLivro (pyStrip s)).isSome <;>
        simp [h, hl, iterarLista, iterarNo, iterarLista_append]
  · intro s rest lei n
    simp only [parseSecoesList]
    cases h : reMatch patNumSecao (pyStrip s) <;>
      simp [h, iterarLista, iterarNo, iterarLista_append]
  · intro s rest lei n
    simp only [parseSubsecoesList]
    cases h : reMatch patNumSubsecao (pyStrip s) <;>
      simp [h, iterarLista, iterarNo, iterarLista_append, iterarLista_map_art]
  · intro s rest lei n h
    simp only [capituloRaizList, h]

/-- Claim C8 (witness): a non-matching segment at the chapter root is
dropped at a concrete input. -/
theorem C8_testemunha :
    capituloRaizList [S "texto sem marcador"] (S "t") 0 =
      capituloRaizList [] (S "t") 0 :=
  C8_achatamento.2.2.2.2.2 (S "texto sem marcador") [] (S "t") 0 (by decide)

/-- Claim C9: the normalizer is not idempotent — on this input the
first pass keeps the leading book-citation lines (no leading newline
yet) and only prepends the newline; the second pass then removes them,
so the two results differ. -/
theorem C9_falha_idempotencia :
    normalizar_texto (S "Livro I a\n.\nfim") = S "\nLivro I a\n.\nfim" ∧
    normalizar_texto (normalizar_texto (S "Livro I a\n.\nfim")) =
      S "\nfim" := by
  decide

/-- Claim C10: the pipeline computes the structural-accuracy ratio
`1 − vazios/total` from the validation counts; on a document with one
empty article out of 10 it is 0.9, and any ratio below 0.95 is a fatal
regression. -/
theorem C10_precisao_gate :
    precisaoEstrutural (validar_estrutura docDezArtigos) = some (9/10) ∧
    regressaoFatal (validar_estrutura docDezArtigos) = true ∧
    (∀ r p, precisaoEstrutural r = some p →
      (regressaoFatal r = true ↔ p < PRECISAO_MINIMA_ARTIGOS)) := by
  have h1 : (validar_estrutura docDezArtigos).total_artigos = 10 := by decide
  have h2 : (validar_estrutura docDezArtigos).artigos_vazios.length = 1 := by
    decide
  have hp : precisaoEstrutural (validar_estrutura docDezArtigos) =
      some (9/10) := by
    unfold precisaoEstrutural
    rw [h1, h2]
    norm_num
  refine ⟨hp, ?_, ?_⟩
  · unfold regressaoFatal
    rw [hp]
    norm_num [PRECISAO_MINIMA_ARTIGOS]
  · intro r p h
    unfold regressaoFatal
    rw [h]
    simp

/-- Claim C10 (witness): the gate equivalence applied to the concrete
ten-article document. -/
theorem C10_testemunha :
    precisaoEstrutural (validar_estrutura docDezArtigos) = some (9/10) ∧
    (regressaoFatal (validar_estrutura docDezArtigos) = true ↔
      (9 : ℚ)/10 < PRECISAO_MINIMA_ARTIGOS) := by
  have h1 : (validar_estrutura docDezArtigos).total_artigos = 10 := by decide
  have h2 : (validar_estrutura docDezArtigos).artigos_vazios.length = 1 := by
    decide
  have hp : precisaoEstrutural (validar_estrutura docDezArtigos) =
      some (9/10) := by
    unfold precisaoEstrutural
    rw [h1, h2]
    norm_num
  exact ⟨hp, C10_precisao_gate.2.2 (validar_estrutura docDezArtigos)
    ((9 : ℚ)/10) hp⟩

end Leis
